import Mathlib

/-!
Verification development for the meridian-llm-go conversation-normalization
library.  Go source files are embedded shallowly: structs become structures,
`map[string]interface{}` becomes an association list over a dynamic value
type, pointers become `Option`, and fallible functions return `Except`.
Machine integers stay `Nat`/`Int` (no overflow is exercised by this code).
-/

namespace Meridian

/-- Dynamic Go value (`interface{}`), as stored in `Block.Content` maps and
parsed JSON documents. -/
inductive GoVal where
  | str (s : String)
  | bool (b : Bool)
  | num (n : Int)
  | arr (xs : List GoVal)
  | obj (kvs : List (String × GoVal))
  deriving Repr

/-- Association-list lookup, mirroring Go map indexing `m[k]`. -/
def lookupKey (kvs : List (String × GoVal)) (k : String) : Option GoVal :=
  match kvs with
  | [] => none
  | (k', v) :: rest => if k' = k then some v else lookupKey rest k

/-- Go type assertion `m[k].(string)`: yields the string only when the key is
present and holds a string. -/
def getStringKey (kvs : List (String × GoVal)) (k : String) : Option String :=
  match lookupKey kvs k with
  | some (.str s) => some s
  | _ => none

/-- Go type assertion `m[k].(bool)`. -/
def getBoolKey (kvs : List (String × GoVal)) (k : String) : Option Bool :=
  match lookupKey kvs k with
  | some (.bool b) => some b
  | _ => none

/-- Go type assertion `m[k].(map[string]interface{})`. -/
def getObjKey (kvs : List (String × GoVal)) (k : String) :
    Option (List (String × GoVal)) :=
  match lookupKey kvs k with
  | some (.obj o) => some o
  | _ => none

/-- Raw provider data (`Block.ProviderData`, a `json.RawMessage`).  `none`
models an absent/empty byte slice; `.malformedJSON` models non-empty bytes
that do not parse; `.parsedJSON v` models non-empty bytes parsing to `v`. -/
inductive PRaw where
  | malformedJSON
  | parsedJSON (v : GoVal)
  deriving Repr

/-- Citation (src/types.go); carried on blocks but inspected by none of the
functions embedded here. -/
structure Citation where
  ctype : String
  url : String
  title : String
  deriving Repr

/-- Block type constants (src/types.go). -/
def BlockTypeText : String := "text"
def BlockTypeThinking : String := "thinking"
def BlockTypeToolUse : String := "tool_use"
def BlockTypeToolResult : String := "tool_result"
def BlockTypeImage : String := "image"
def BlockTypeDocument : String := "document"
def BlockTypeWebSearch : String := "web_search_use"
def BlockTypeWebSearchResult : String := "web_search_result"

/-- Execution side constants (src/tools.go). `ExecutionSide` is a Go string
type, so blocks may carry any string here. -/
def ExecutionSideServer : String := "server"
def ExecutionSideClient : String := "client"

/-- Modelled from the spec: the third execution-side value, `provider`.  The
Go constant `ExecutionSideProvider` is referenced by src/unnamed/part_005 and
src/providers/openrouter/adapter_test.go but its declaration is in a file
missing from src/; the spec fixes the value set as
`execution_side ∈ {provider, server, client}`. -/
def ExecutionSideProvider : String := "provider"

/-- Provider identifiers (src/provider_registry.go); `ProviderID` is a Go
string type and `String()` is the identity, so plain strings are used. -/
def ProviderAnthropic : String := "anthropic"
def ProviderOpenRouter : String := "openrouter"
def ProviderLorem : String := "lorem"
def ProviderGoogle : String := "google"

/-- Normalized content block (src/types.go `Block`). -/
structure Block where
  blockType : String
  sequence : Nat := 0
  textContent : Option String := none
  content : Option (List (String × GoVal)) := none
  executionSide : Option String := none
  provider : Option String := none
  providerData : Option PRaw := none
  citations : List Citation := []
  deriving Repr

/-- Normalized message (an ordered list of blocks plus a role). -/
structure Message where
  role : String
  blocks : List Block
  deriving Repr

namespace Block

/-- src/types.go `GetExecutionSide`: the side, or empty string when unset. -/
def GetExecutionSide (b : Block) : String :=
  match b.executionSide with
  | none => ""
  | some s => s

/-- src/types.go `IsToolUseBlock`. -/
def IsToolUseBlock (b : Block) : Bool :=
  b.blockType = BlockTypeToolUse

/-- src/types.go `IsToolResultBlock`. -/
def IsToolResultBlock (b : Block) : Bool :=
  b.blockType = BlockTypeToolResult

/-- src/types.go `IsToolBlock`. -/
def IsToolBlock (b : Block) : Bool :=
  b.blockType = BlockTypeToolUse || b.blockType = BlockTypeToolResult ||
  b.blockType = BlockTypeWebSearch || b.blockType = BlockTypeWebSearchResult

/-- src/types.go `IsServerSideTool`. -/
def IsServerSideTool (b : Block) : Bool :=
  b.GetExecutionSide = ExecutionSideServer

/-- src/types.go `IsClientSideTool`. -/
def IsClientSideTool (b : Block) : Bool :=
  b.GetExecutionSide = ExecutionSideClient

/-- src/types.go `GetToolUseID`: the `tool_use_id` entry of the content map
of a tool block. -/
def GetToolUseID (b : Block) : Option String :=
  if b.IsToolBlock then
    getStringKey (b.content.getD []) "tool_use_id"
  else none

/-- src/types.go `GetToolName`: the `tool_name` entry of the content map of a
tool_use block.  Mirrors the Go `(value, ok)` pair as an `Option`. -/
def GetToolName (b : Block) : Option String :=
  if b.IsToolUseBlock then
    getStringKey (b.content.getD []) "tool_name"
  else none

/-- src/types.go `IsFromDifferentProvider`. -/
def IsFromDifferentProvider (b : Block) (currentProvider : String) : Bool :=
  match b.provider with
  | none => false
  | some p => p ≠ "" && p ≠ currentProvider

/-- src/types.go `IsFromProvider`. -/
def IsFromProvider (b : Block) (provider : String) : Bool :=
  match b.provider with
  | none => false
  | some p => p = provider

/-- src/types.go `HasProviderData` (`len(b.ProviderData) > 0`). -/
def HasProviderData (b : Block) : Bool :=
  b.providerData.isSome

/-- src/types.go `CanReplayToProvider`: non-tool_use blocks are always
replayable; client-side tools are replayable; any other tool_use block is
replayable only to the provider recorded on the block. -/
def CanReplayToProvider (b : Block) (targetProvider : String) : Bool :=
  if b.blockType ≠ BlockTypeToolUse then
    true
  else if b.GetExecutionSide = ExecutionSideClient then
    true
  else
    b.IsFromProvider targetProvider

end Block

/-! ## Cross-provider splitter (src/unnamed/part_002) -/

/-- src/unnamed/part_002 `FindToolResultBlocks`: only the first text block
after the tool_use is consumed as the result; returns the result blocks and
the number of blocks consumed.  Here `rest` is the block list following the
tool_use block. -/
def FindToolResultBlocks (rest : List Block) : List Block × Nat :=
  match rest with
  | next :: _ =>
      if next.blockType = BlockTypeText then ([next], 1) else ([], 0)
  | [] => ([], 0)

/-- src/unnamed/part_002 `FormatToolResults`. -/
def FormatToolResults (blocks : List Block) : String :=
  if blocks.isEmpty then
    "No results found."
  else
    (blocks.foldl
      (fun sb b =>
        match b.textContent with
        | some t => sb ++ t ++ "\n\n"
        | none => sb)
      "Tool results:\n\n").trim

/-- Trigger condition of the splitter on one block (the condition tested at
src/unnamed/part_002 lines 34-37 and 55-57). -/
def crossProviderServerTool (b : Block) (currentProvider : String) : Bool :=
  b.IsToolUseBlock && b.IsServerSideTool &&
  b.IsFromDifferentProvider currentProvider

/-- Synthetic assistant message ("I used the X tool"), as built at
src/unnamed/part_002 lines 74-85. -/
def syntheticAssistantMessage (toolName : String) : Message :=
  { role := "assistant"
    blocks := [{ blockType := BlockTypeText, sequence := 0
                 textContent :=
                   some ("I used the " ++ toolName ++
                     " tool to help answer your question.") }] }

/-- Synthetic user message carrying formatted tool results
(src/unnamed/part_002 lines 90-101). -/
def syntheticUserMessage (userText : String) : Message :=
  { role := "user"
    blocks := [{ blockType := BlockTypeText, sequence := 0
                 textContent := some userText }] }

/-- Inner walk of `SplitMessagesAtCrossProviderTool` over the blocks of one
assistant message, carrying the accumulated buffer (`currentBlocks`). -/
def splitWalk (currentProvider : String) (currentBlocks : List Block) :
    List Block → List Message
  | [] => if currentBlocks.isEmpty then [] else [⟨"assistant", currentBlocks⟩]
  | b :: rest =>
      if crossProviderServerTool b currentProvider then
        let flushed : List Message :=
          if currentBlocks.isEmpty then [] else [⟨"assistant", currentBlocks⟩]
        let toolName :=
          match b.GetToolName with
          | some n => if n = "" then "search" else n
          | none => "search"
        let found := FindToolResultBlocks rest
        let userText := FormatToolResults found.1
        flushed ++ [syntheticAssistantMessage toolName] ++
          [syntheticUserMessage userText] ++
          splitWalk currentProvider [] (rest.drop found.2)
      else
        splitWalk currentProvider (currentBlocks ++ [b]) rest
  termination_by blocks => blocks.length
  decreasing_by
    all_goals (simp only [List.length_cons, List.length_drop]; omega)

/-- src/unnamed/part_002 `SplitMessagesAtCrossProviderTool`: assistant
messages containing a cross-provider server-side tool_use are split at each
such block into synthetic assistant/user turns; all other messages pass
through unchanged.  The Go loop appends each message's contribution to the
result slice in order, i.e. concatenates them; the Go function can only
return a nil error, so the error return is dropped. -/
def SplitMessagesAtCrossProviderTool (messages : List Message)
    (currentProvider : String) : List Message :=
  messages.flatMap
    (fun msg =>
      if msg.role ≠ "assistant" then
        [msg]
      else if !msg.blocks.any (crossProviderServerTool · currentProvider) then
        [msg]
      else
        splitWalk currentProvider [] msg.blocks)

/-! ## Spec-side reformulation of the cross-provider splitter (§4.4)

A second definition of the splitter, written after the spec's step list
(scan; flush buffer; synthetic assistant text; consume the single
immediately-following text block; continue) using a span-based decomposition
instead of the source's accumulator walk.  It is compared with the
source-translated `SplitMessagesAtCrossProviderTool` in the C1 theorem. -/

/-- Spec step (b): the synthetic assistant text for a tool name, with the
source's fallback to "search" when the name is absent or empty. -/
def specToolName (b : Block) : String :=
  match b.GetToolName with
  | some n => if n = "" then "search" else n
  | none => "search"

/-- Spec step (c): the payload of the synthetic user message.  Only the
single immediately following text block (if any) is consumed; its text is
wrapped as "Tool results:\n\n{payload}" and surrounding whitespace is
trimmed; with no such text block the text is "No results found.". -/
def specUserText (rest : List Block) : String :=
  match rest with
  | r :: _ =>
      if r.blockType = BlockTypeText then
        match r.textContent with
        | some payload => ("Tool results:\n\n" ++ payload ++ "\n\n").trim
        | none => ("Tool results:\n\n" : String).trim
      else "No results found."
  | [] => "No results found."

/-- Number of blocks consumed by spec step (c). -/
def specConsumed (rest : List Block) : Nat :=
  match rest with
  | r :: _ => if r.blockType = BlockTypeText then 1 else 0
  | [] => 0

/-- Spec steps (a)-(d) over the block list of one assistant message, by
repeated span decomposition at the next cross-provider server tool. -/
def splitSpecBlocks (currentProvider : String) (blocks : List Block) :
    List Message :=
  let pre := blocks.takeWhile (fun b => !crossProviderServerTool b currentProvider)
  let post := blocks.dropWhile (fun b => !crossProviderServerTool b currentProvider)
  if hpost : post.isEmpty then
    if pre.isEmpty then [] else [⟨"assistant", pre⟩]
  else
    (if pre.isEmpty then [] else [⟨"assistant", pre⟩]) ++
    [syntheticAssistantMessage (specToolName
      (post.head (fun hnil => absurd (List.isEmpty_iff.mpr hnil) hpost)))] ++
    [syntheticUserMessage (specUserText post.tail)] ++
    splitSpecBlocks currentProvider (post.tail.drop (specConsumed post.tail))
  termination_by blocks.length
  decreasing_by
    have hlen : (blocks.dropWhile
        (fun b => !crossProviderServerTool b currentProvider)).length ≤
        blocks.length :=
      List.Sublist.length_le (List.dropWhile_sublist _)
    have hpos : 0 < (blocks.dropWhile
        (fun b => !crossProviderServerTool b currentProvider)).length :=
      List.length_pos.mpr
        (fun hnil => absurd (List.isEmpty_iff.mpr hnil) hpost)
    simp only [List.length_drop, List.length_tail]
    omega

/-- Spec step 1: messages that are not assistant messages, or contain no
cross-provider server tool, pass through unchanged. -/
def splitSpecOne (currentProvider : String) (msg : Message) : List Message :=
  if msg.role ≠ "assistant" then [msg]
  else if !msg.blocks.any (crossProviderServerTool · currentProvider) then [msg]
  else splitSpecBlocks currentProvider msg.blocks

/-! ## Error taxonomy (src/unnamed/part_006) -/

/-- Sentinel errors declared in src/unnamed/part_006, plus Go's
`context.DeadlineExceeded` which `IsRetryable` also recognises. -/
inductive Sentinel where
  | invalidModel
  | invalidAPIKey
  | rateLimited
  | unsupportedFeature
  | unsupportedTool
  | toolUnavailable
  | invalidRequest
  | providerUnavailable
  | timeout
  | deadlineExceeded
  deriving Repr, DecidableEq

/-- Go error values reachable in the embedded code: sentinels, the typed
error structs of src/unnamed/part_006 (each with its wrapped error), errors
built with `fmt.Errorf` using `%w` (wrapping), and plain leaf errors. -/
inductive GoErr where
  | sentinel (s : Sentinel)
  | providerError (code : String) (provider : String) (statusCode : Nat)
      (message : String) (retryable : Bool) (err : Option GoErr)
  | modelError (code : String) (model : String) (provider : String)
      (reason : String) (err : Option GoErr)
  | toolError (code : String) (tool : String) (provider : String)
      (model : String) (reason : String) (retryable : Bool) (err : Option GoErr)
  | validationError (code : String) (field : String) (reason : String)
      (err : Option GoErr)
  | wrapped (message : String) (err : GoErr)
  | basic (message : String)
  deriving Repr

/-- Error code constants (src/unnamed/part_006). -/
def ErrorCodeRateLimited : String := "RATE_LIMITED"
def ErrorCodeProviderUnavailable : String := "PROVIDER_UNAVAILABLE"
def ErrorCodeTimeout : String := "TIMEOUT"
def ErrorCodeInvalidAPIKey : String := "INVALID_API_KEY"

/-- Go `errors.Is(err, target)` for the sentinel targets used here: walks
the `Unwrap` chain looking for the sentinel. -/
def errorsIs (e : GoErr) (target : Sentinel) : Bool :=
  match e with
  | .sentinel s => s = target
  | .providerError _ _ _ _ _ err =>
      match err with | some e' => errorsIs e' target | none => false
  | .modelError _ _ _ _ err =>
      match err with | some e' => errorsIs e' target | none => false
  | .toolError _ _ _ _ _ _ err =>
      match err with | some e' => errorsIs e' target | none => false
  | .validationError _ _ _ err =>
      match err with | some e' => errorsIs e' target | none => false
  | .wrapped _ err => errorsIs err target
  | .basic _ => false

/-- Go `errors.As(err, &providerErr)`: finds the first `*ProviderError` in
the unwrap chain, returning its status code and retryable flag. -/
def asProviderError (e : GoErr) : Option (Nat × Bool) :=
  match e with
  | .providerError _ _ statusCode _ retryable _ => some (statusCode, retryable)
  | .modelError _ _ _ _ err =>
      match err with | some e' => asProviderError e' | none => none
  | .toolError _ _ _ _ _ _ err =>
      match err with | some e' => asProviderError e' | none => none
  | .validationError _ _ _ err =>
      match err with | some e' => asProviderError e' | none => none
  | .wrapped _ err => asProviderError err
  | .sentinel _ => none
  | .basic _ => none

/-- Go `errors.As(err, &toolErr)`: finds the first `*ToolError` in the
unwrap chain, returning its retryable flag. -/
def asToolError (e : GoErr) : Option Bool :=
  match e with
  | .toolError _ _ _ _ _ retryable _ => some retryable
  | .providerError _ _ _ _ _ err =>
      match err with | some e' => asToolError e' | none => none
  | .modelError _ _ _ _ err =>
      match err with | some e' => asToolError e' | none => none
  | .validationError _ _ _ err =>
      match err with | some e' => asToolError e' | none => none
  | .wrapped _ err => asToolError err
  | .sentinel _ => none
  | .basic _ => none

/-- src/unnamed/part_006 `IsRetryable` (on a non-nil error). -/
def IsRetryable (e : GoErr) : Bool :=
  if errorsIs e .timeout || errorsIs e .deadlineExceeded then true
  else match asProviderError e with
  | some (_, retryable) => retryable
  | none =>
    match asToolError e with
    | some retryable => retryable
    | none =>
      if errorsIs e .rateLimited then true
      else if errorsIs e .providerUnavailable then true
      else if errorsIs e .toolUnavailable then true
      else false

/-- src/unnamed/part_006 `IsAuthError` (on a non-nil error). -/
def IsAuthError (e : GoErr) : Bool :=
  if errorsIs e .invalidAPIKey then true
  else match asProviderError e with
  | some (statusCode, _) => statusCode = 401 || statusCode = 403
  | none => false

/-- src/unnamed/part_006 `NewProviderError`: builds a ProviderError whose
retryability and code are inferred from the status code alone. -/
def NewProviderError (provider : String) (statusCode : Nat) (message : String)
    (err : Option GoErr) : GoErr :=
  let retryable := statusCode = 429 || statusCode = 502 ||
    statusCode = 503 || statusCode = 504
  let code :=
    if statusCode = 401 ∨ statusCode = 403 then ErrorCodeInvalidAPIKey
    else if statusCode = 429 then ErrorCodeRateLimited
    else if statusCode = 502 ∨ statusCode = 503 ∨ statusCode = 504 then
      ErrorCodeProviderUnavailable
    else ErrorCodeProviderUnavailable
  .providerError code provider statusCode message retryable err

/-! ## The shared message-shape walks

The inner loops of the `splitMessagesAtToolResults` functions (an
accumulate-and-flush walk over one assistant message's blocks, identical in
the OpenRouter and Anthropic adapters except for the role given to
tool_result messages) and of `mergeConsecutiveSameRoleMessages` (a
run-merging walk with a `current` accumulator), translated as structural
recursions. -/

/-- The block walk of `splitMessagesAtToolResults`: `cur` is the
accumulated `currentBlocks` buffer; each tool_result flushes the buffer (if
non-empty) as an assistant message and is emitted as its own single-block
message of role `resRole`. -/
def walkTR (resRole : String) (cur : List Block) : List Block → List Message
  | [] => if cur.isEmpty then [] else [⟨"assistant", cur⟩]
  | b :: bs =>
      if b.blockType = BlockTypeToolResult then
        (if cur.isEmpty then [] else [⟨"assistant", cur⟩]) ++
          ⟨resRole, [b]⟩ :: walkTR resRole [] bs
      else walkTR resRole (cur ++ [b]) bs

/-- The message walk of `mergeConsecutiveSameRoleMessages`: `cur` is the
`current` message; same-role neighbours have their block lists appended to
it, a different role emits it and starts anew. -/
def mergeAux (cur : Message) : List Message → List Message
  | [] => [cur]
  | m :: ms =>
      if m.role = cur.role then
        mergeAux ⟨cur.role, cur.blocks ++ m.blocks⟩ ms
      else cur :: mergeAux m ms

/-! ## OpenRouter dispatcher error mapping (src/unnamed/part_009) -/

namespace OpenRouter

/-- src/unnamed/part_009 `handleErrorResponse`.  `parsedMessage` is the
`error.message` field of the structured OpenRouter error body when the body
parses and the message is non-empty (`none` models the plain-text
fallback path); `bodyText` is the raw body used by that fallback. -/
def handleErrorResponse (statusCode : Nat) (parsedMessage : Option String)
    (bodyText : String) : GoErr :=
  match parsedMessage with
  | none =>
      .basic ("openrouter error (HTTP " ++ toString statusCode ++ "): " ++
        bodyText)
  | some message =>
    if statusCode = 401 then
      .sentinel .invalidAPIKey
    else if statusCode = 429 then
      .providerError ErrorCodeRateLimited ProviderOpenRouter statusCode
        message true (some (.sentinel .rateLimited))
    else if statusCode = 402 then
      .providerError ErrorCodeProviderUnavailable ProviderOpenRouter statusCode
        ("insufficient credits: " ++ message) false
        (some (.sentinel .providerUnavailable))
    else if statusCode = 408 then
      .providerError ErrorCodeTimeout ProviderOpenRouter statusCode
        message true (some (.sentinel .timeout))
    else if statusCode = 404 then
      .modelError "" "" ProviderOpenRouter
        (if message = "" then
          "model not found on OpenRouter - verify model name at https://openrouter.ai/models"
         else message)
        (some (.sentinel .invalidModel))
    else
      .providerError ErrorCodeProviderUnavailable ProviderOpenRouter statusCode
        message (decide (500 ≤ statusCode))
        (some (.sentinel .providerUnavailable))

/-! ## OpenRouter message-shape transforms (src/providers/openrouter/tools.go) -/

/-- src/providers/openrouter/tools.go `splitMessagesAtToolResults` (lines
901-948): assistant messages are split at each tool_result boundary; the
tool_result is emitted as its own role-"tool" message; other messages pass
through unchanged. -/
def splitMessagesAtToolResults (messages : List Message) : List Message :=
  messages.flatMap
    (fun msg =>
      if msg.role ≠ "assistant" then [msg]
      else walkTR "tool" [] msg.blocks)

/-- src/providers/openrouter/tools.go `mergeConsecutiveSameRoleMessages`
(lines 961-984): adjacent messages with the same role have their block lists
concatenated in order (lists of length at most one are returned as-is). -/
def mergeConsecutiveSameRoleMessages (messages : List Message) : List Message :=
  match messages with
  | [] => []
  | first :: rest => mergeAux first rest

end OpenRouter

/-! ## Anthropic-style adapter (second document in
src/providers/openrouter/adapter_test.go, package `anthropic`) -/

namespace Anthropic

/-- A web search result entry of the Anthropic SDK
(`anthropic.WebSearchResultBlockParam`). -/
structure WSResult where
  url : String
  title : String
  pageAge : String
  encryptedContent : String
  deriving Repr

/-- Content union of a web_search_tool_result SDK block: either a result
list or an error code. -/
inductive WSContent where
  | results (rs : List WSResult)
  | searchError (errorCode : String)
  deriving Repr

/-- Anthropic SDK content block union (`anthropic.ContentBlockParamUnion`),
restricted to the constructors the adapter builds:
`NewTextBlock`, `NewToolUseBlock`, `NewToolResultBlock`, `NewThinkingBlock`,
`NewServerToolUseBlock`, `NewWebSearchToolResultBlock`. -/
inductive ABlock where
  | text (t : String)
  | toolUse (id : String) (input : GoVal) (name : String)
  | toolResult (toolUseId : String) (content : String) (isError : Bool)
  | thinking (signature : String) (t : String)
  | serverToolUse (id : String) (input : Option (List (String × GoVal)))
  | webSearchToolResult (content : WSContent) (toolUseId : String)
  deriving Repr

/-- Anthropic SDK message (`anthropic.MessageParam`):
`NewUserMessage`/`NewAssistantMessage` over a block list. -/
structure AMessage where
  role : String
  blocks : List ABlock
  deriving Repr

/-- Character class of the Go regexp `[^a-zA-Z0-9_-]`'s complement. -/
def isValidToolIDChar (c : Char) : Bool :=
  ('a' ≤ c && c ≤ 'z') || ('A' ≤ c && c ≤ 'Z') ||
  ('0' ≤ c && c ≤ '9') || c = '_' || c = '-'

/-- `sanitizeToolUseID` (adapter lines 198-205): every character outside
`[a-zA-Z0-9_-]` is replaced with an underscore.  The Go regexp replaces one
rune at a time, so this is a character map. -/
def sanitizeToolUseID (id : String) : String :=
  ⟨id.data.map (fun c => if isValidToolIDChar c then c else '_')⟩

/-- Whether a string matches `^[a-zA-Z0-9_-]+$` (Anthropic's tool-ID
requirement). -/
def matchesToolIDPattern (s : String) : Bool :=
  !s.data.isEmpty && s.data.all isValidToolIDChar

/-- Go `json.Unmarshal` of an object field into a `string` struct field:
a missing key decodes to the empty string; a key holding a non-string
value is a decode error. -/
def decodeStringField (kvs : List (String × GoVal)) (k : String) :
    Except String String :=
  match lookupKey kvs k with
  | none => .ok ""
  | some (.str s) => .ok s
  | some _ => .error "json: cannot unmarshal field"

/-- Decode one entry of the new-format web search result array
(url/title/page_age/encrypted_content, each an optional string field). -/
def decodeWSResult (v : GoVal) : Except String WSResult :=
  match v with
  | .obj kvs => do
      let url ← decodeStringField kvs "url"
      let title ← decodeStringField kvs "title"
      let pageAge ← decodeStringField kvs "page_age"
      let encryptedContent ← decodeStringField kvs "encrypted_content"
      .ok ⟨url, title, pageAge, encryptedContent⟩
  | _ => .error "json: cannot unmarshal result entry"

/-- Decode the result array of a web_search_tool_result content object. -/
def decodeWSResults (v : Option GoVal) : Except String (List WSResult) :=
  match v with
  | none => .ok []
  | some (.arr xs) => xs.mapM decodeWSResult
  | some _ => .error "json: cannot unmarshal results"

/-- The `input` field extraction of the server_tool_use replay: the `input`
key when it holds a JSON object, otherwise absent. -/
def serverToolInput (kvs : List (String × GoVal)) :
    Option (List (String × GoVal)) :=
  match lookupKey kvs "input" with
  | some (.obj o) => some o
  | _ => none

/-- The new sparse provider_data shape of a replayed web_search_tool_result:
tool_use_id plus a content object holding a result list and/or an error
code (each piece optional). -/
def decodeWSNewFormat (kvs : List (String × GoVal)) :
    Except String (String × List WSResult × String) := do
  let toolUseId ← decodeStringField kvs "tool_use_id"
  match lookupKey kvs "content" with
  | some (.obj ckvs) => do
      let rs ← decodeWSResults (lookupKey ckvs "results")
      let errorCode ← decodeStringField ckvs "error_code"
      .ok (toolUseId, rs, errorCode)
  | none => .ok (toolUseId, [], "")
  | some _ => .error "json: cannot unmarshal content"

/-- The legacy web_search_tool_result replay path: `content` decoded as the
SDK union — a `content` array is a result list, a `content` object may
carry an `error_code`. -/
def replayWSLegacy (kvs : List (String × GoVal)) : Except String ABlock := do
  let toolUseId ← decodeStringField kvs "tool_use_id"
  match lookupKey kvs "content" with
  | some (.arr xs) => do
      let rs ← xs.mapM decodeWSResult
      if !rs.isEmpty then
        .ok (.webSearchToolResult (.results rs) toolUseId)
      else
        .error "web_search_tool_result has no results and no error"
  | some (.obj ckvs) => do
      let errorCode ← decodeStringField ckvs "error_code"
      if errorCode ≠ "" then
        .ok (.webSearchToolResult (.searchError errorCode) toolUseId)
      else
        .error "web_search_tool_result has no results and no error"
  | _ => .error "failed to unmarshal web_search content"

/-- `replayAnthropicBlock` (adapter lines 515-628): deserializes
`ProviderData` and reconstructs the exact original SDK block for
same-provider replay.  The new sparse web_search shape is tried first;
when it does not apply, the legacy SDK-union decoding of `content` runs. -/
def replayAnthropicBlock (b : Block) : Except String ABlock :=
  match b.providerData with
  | none => .error "block has no provider data"
  | some .malformedJSON => .error "failed to unmarshal provider data"
  | some (.parsedJSON v) =>
    match v with
    | .obj kvs => do
      let ptype ← decodeStringField kvs "type"
      if ptype = "server_tool_use" then do
        let id ← decodeStringField kvs "id"
        let _ ← decodeStringField kvs "name"
        .ok (.serverToolUse id (serverToolInput kvs))
      else if ptype = "web_search_tool_result" then
        match decodeWSNewFormat kvs with
        | .ok (toolUseId, rs, errorCode) =>
          if toolUseId ≠ "" && !rs.isEmpty then
            .ok (.webSearchToolResult (.results rs) toolUseId)
          else if toolUseId ≠ "" && errorCode ≠ "" then
            .ok (.webSearchToolResult (.searchError errorCode) toolUseId)
          else
            replayWSLegacy kvs
        | .error _ => replayWSLegacy kvs
      else
        .error ("raw replay not implemented for type: " ++ ptype)
    | _ => .error "failed to unmarshal provider data"

/-- The same-provider replay preference at the top of the adapter's block
loop (adapter lines 236-242): attempted only for blocks from the Anthropic
backend carrying provider data; on failure the block falls through to
normalized conversion. -/
def replayPath (b : Block) : Option ABlock :=
  if b.IsFromProvider ProviderAnthropic && b.HasProviderData then
    (replayAnthropicBlock b).toOption
  else none

/-- Signature extraction for thinking blocks (adapter lines 343-351): the
`signature` key of the JSON-decoded provider data, or "" when absent,
unparseable, or not a string. -/
def extractSignature (b : Block) : String :=
  match b.providerData with
  | some (.parsedJSON (.obj kvs)) =>
      match getStringKey kvs "signature" with
      | some sig => sig
      | none => ""
  | _ => ""

/-- Last two branches of the tool_result content resolution
(`Content["error"]` when `isError`, else the empty string). -/
def toolResultFallback (content : List (String × GoVal)) (isError : Bool) :
    String :=
  match getStringKey content "error" with
  | some s => if isError then s else ""
  | none => ""

/-- The tool_result `resultContent` resolution chain of the adapter:
TextContent, then Content["content"], then Content["result"] (on success
only), then the error fallback. -/
def toolResultContent (b : Block) (content : List (String × GoVal))
    (isError : Bool) : String :=
  match b.textContent with
  | some t => t
  | none =>
    match getStringKey content "content" with
    | some s => s
    | none =>
      match getStringKey content "result" with
      | some s => if !isError then s else toolResultFallback content isError
      | none => toolResultFallback content isError

/-- Per-block conversion of `convertToAnthropicMessages` (adapter lines
233-391).  `.ok none` is a skipped block (unsupported kinds). -/
def convertBlock (b : Block) : Except String (Option ABlock) :=
  match replayPath b with
  | some originalBlock => .ok (some originalBlock)
  | none =>
    if b.blockType = BlockTypeToolUse ∧
        b.executionSide = some ExecutionSideProvider ∧
        b.IsFromDifferentProvider ProviderAnthropic then
      .error "unexpected cross-provider provider-side tool (should have been split)"
    else if b.blockType = BlockTypeText then
      match b.textContent with
      | none => .error "text block missing text_content"
      | some t => .ok (some (.text t))
    else if b.blockType = BlockTypeToolUse then
      match b.content with
      | none => .error "tool_use block missing content"
      | some content =>
        match getStringKey content "tool_use_id" with
        | none => .error "tool_use block missing tool_use_id"
        | some rawId =>
          if rawId = "" then .error "tool_use block missing tool_use_id"
          else
            match getStringKey content "tool_name" with
            | none => .error "tool_use block missing tool_name"
            | some toolName =>
              if toolName = "" then .error "tool_use block missing tool_name"
              else
                match lookupKey content "input" with
                | none => .error "tool_use block missing input"
                | some input =>
                    .ok (some (.toolUse (sanitizeToolUseID rawId) input
                      toolName))
    else if b.blockType = BlockTypeToolResult then
      match b.content with
      | none => .error "tool_result block missing content"
      | some content =>
        match getStringKey content "tool_use_id" with
        | none => .error "tool_result block missing tool_use_id"
        | some rawId =>
          if rawId = "" then .error "tool_result block missing tool_use_id"
          else
            .ok (some (.toolResult (sanitizeToolUseID rawId)
              (toolResultContent b content
                ((getBoolKey content "is_error").getD false))
              ((getBoolKey content "is_error").getD false)))
    else if b.blockType = BlockTypeThinking then
      match b.textContent with
      | none => .error "thinking block missing text_content"
      | some t =>
        if extractSignature b = "" then
          .ok (some (.text ("<thinking>\n" ++ t ++ "\n</thinking>")))
        else
          .ok (some (.thinking (extractSignature b) t))
    else if b.blockType = BlockTypeWebSearch ∨
        b.blockType = BlockTypeWebSearchResult then
      if b.IsFromProvider ProviderAnthropic && b.HasProviderData then
        match replayAnthropicBlock b with
        | .ok originalBlock => .ok (some originalBlock)
        | .error e => .error ("failed to replay web_search block: " ++ e)
      else
        .error "cross-provider web_search replay not yet supported"
    else
      .ok none

/-- Block-list conversion with skipped blocks removed (the adapter's inner
loop). -/
def convertBlocks (blocks : List Block) : Except String (List ABlock) :=
  match blocks with
  | [] => .ok []
  | b :: rest => do
      let converted ← convertBlock b
      let tail ← convertBlocks rest
      match converted with
      | some ab => .ok (ab :: tail)
      | none => .ok tail

/-- Role dispatch of the adapter (NewUserMessage / NewAssistantMessage). -/
def convertMessage (msg : Message) : Except String AMessage := do
  let blocks ← convertBlocks msg.blocks
  if msg.role = "user" then .ok ⟨"user", blocks⟩
  else if msg.role = "assistant" then .ok ⟨"assistant", blocks⟩
  else .error ("unsupported role " ++ msg.role)

/-- The adapter's `splitMessagesAtToolResults` (adapter lines 429-474):
identical to the OpenRouter version except that each tool_result becomes a
role-"user" message. -/
def splitMessagesAtToolResults (messages : List Message) : List Message :=
  messages.flatMap
    (fun msg =>
      if msg.role ≠ "assistant" then [msg]
      else walkTR "user" [] msg.blocks)

/-- The adapter's `mergeConsecutiveSameRoleMessages` (adapter lines
487-510), character-identical to the OpenRouter version. -/
def mergeConsecutiveSameRoleMessages (messages : List Message) : List Message :=
  OpenRouter.mergeConsecutiveSameRoleMessages messages

/-- The adapter's message loop: each merged message is converted in order,
with the first error aborting the conversion. -/
def convertMessages : List Message → Except String (List AMessage)
  | [] => .ok []
  | m :: ms => do
      let am ← convertMessage m
      let rest ← convertMessages ms
      .ok (am :: rest)

/-- `convertToAnthropicMessages` (adapter lines 208-408): cross-provider
split, tool_result boundary split, same-role merge, then per-message
conversion. -/
def convertToAnthropicMessages (messages : List Message) :
    Except String (List AMessage) :=
  let processedMessages :=
    SplitMessagesAtCrossProviderTool messages ProviderAnthropic
  let splitMessages := splitMessagesAtToolResults processedMessages
  let mergedMessages := mergeConsecutiveSameRoleMessages splitMessages
  convertMessages mergedMessages

end Anthropic

/-! ## Streaming event model (src/streaming.go, src/types.go) -/

/-- Delta type constants (src/types.go). -/
def DeltaTypeText : String := "text_delta"
def DeltaTypeThinking : String := "thinking_delta"
def DeltaTypeSignature : String := "signature_delta"
def DeltaTypeToolCallStart : String := "tool_call_start"
def DeltaTypeJSON : String := "json_delta"

/-- Incremental update to a block during streaming (src/types.go
`BlockDelta`).  `inputJSONDelta` is the field used by the Lorem producer's
era of the struct; the OpenRouter aggregator uses `jsonDelta`. -/
structure BlockDelta where
  blockIndex : Nat
  blockType : Option String := none
  deltaType : String := ""
  textDelta : Option String := none
  signatureDelta : Option String := none
  jsonDelta : Option String := none
  inputJSONDelta : Option String := none
  toolCallID : Option String := none
  toolCallName : Option String := none
  deriving Repr

/-- Final stream metadata (src/streaming.go `StreamMetadata`). -/
structure StreamMetadata where
  model : String := ""
  inputTokens : Nat := 0
  outputTokens : Nat := 0
  stopReason : String := ""
  responseMetadata : List (String × GoVal) := []
  deriving Repr

/-- A streaming event (src/streaming.go `StreamEvent`): exactly one of a
delta, a complete block, final metadata, or an error.  The Go struct holds
four pointers of which exactly one is non-nil; the sum type captures that
invariant directly. -/
inductive StreamEvent where
  | delta (d : BlockDelta)
  | block (b : Block)
  | metadata (m : StreamMetadata)
  | error (e : GoErr)
  deriving Repr

namespace StreamEvent

/-- Whether the event is a metadata event. -/
def isMetadata : StreamEvent → Bool
  | .metadata _ => true
  | _ => false

/-- Whether the event is an error event. -/
def isError : StreamEvent → Bool
  | .error _ => true
  | _ => false

/-- Whether the event is a complete-block event. -/
def isBlock : StreamEvent → Bool
  | .block _ => true
  | _ => false

/-- Whether the event is a delta event. -/
def isDelta : StreamEvent → Bool
  | .delta _ => true
  | _ => false

end StreamEvent

/-! ## OpenRouter stream finalization (src/providers/openrouter/streaming.go) -/

namespace OpenRouter

/-- Accumulated tool-call state
(src/providers/openrouter/streaming.go `accumulatedToolCall`). -/
structure AccToolCall where
  id : String := ""
  name : String := ""
  args : String := ""
  deriving Repr

/-- Lookup in the `map[int]*accumulatedToolCall` accumulator. -/
def lookupToolCall (m : List (Nat × AccToolCall)) (idx : Nat) :
    Option AccToolCall :=
  match m with
  | [] => none
  | (i, acc) :: rest => if i = idx then some acc else lookupToolCall rest idx

/-- Go's `%q` formatting of the malformed-arguments string.  Our inputs
contain no characters that `%q` escapes, so it reduces to quoting. -/
def goQuote (s : String) : String := "\"" ++ s ++ "\""

/-- The tool-call finalization loop (streaming.go lines 880-923): walks map
indices `0 ≤ idx < len(map)`, skipping gaps; parses each non-empty argument
buffer as a JSON object (`parseObj` models `json.Unmarshal` into
`map[string]interface{}`); a parse failure aborts with an error naming the
index and the received buffer; otherwise a complete tool_use block is
emitted at the next sequence number.  Returns the emitted events, the final
sequence counter, and the error (if any). -/
def finalizeToolCalls (parseObj : String → Except String (List (String × GoVal)))
    (m : List (Nat × AccToolCall)) (idx : Nat) (seq : Nat) :
    List StreamEvent × Nat × Option GoErr :=
  if _h : idx < m.length then
    match lookupToolCall m idx with
    | none => finalizeToolCalls parseObj m (idx + 1) seq
    | some acc =>
      let parsedInput : Except String (List (String × GoVal)) :=
        if acc.args.length > 0 then parseObj acc.args else .ok []
      match parsedInput with
      | .error e =>
          ([], seq,
           some (.wrapped
             ("invalid tool call arguments at index " ++ toString idx ++
              ": received malformed JSON " ++ goQuote acc.args ++ " - ")
             (.basic e)))
      | .ok input =>
          let blockEv : StreamEvent := .block
            { blockType := BlockTypeToolUse
              sequence := seq
              content := some
                [("tool_use_id", .str acc.id), ("tool_name", .str acc.name),
                 ("input", .obj input)]
              executionSide := some ExecutionSideClient
              provider := some ProviderOpenRouter }
          let rest := finalizeToolCalls parseObj m (idx + 1) (seq + 1)
          (blockEv :: rest.1, rest.2)
  else
    ([], seq, none)
  termination_by m.length - idx

/-- Emission of a still-open thinking block when the scan loop terminates
(streaming.go lines 836-848): a complete thinking Block event when the
current block is a non-empty thinking block, advancing the sequence
counter. -/
def flushThinking (currentType : String) (currentIndex : Nat)
    (thinkingContent : String) : List StreamEvent × Nat :=
  if currentType = "thinking" ∧ thinkingContent.length > 0 then
    ([.block { blockType := BlockTypeThinking, sequence := currentIndex
               textContent := some thinkingContent
               provider := some ProviderOpenRouter }], currentIndex + 1)
  else ([], currentIndex)

/-- Emission of a still-open text block when the scan loop terminates
(streaming.go lines 850-867). -/
def flushText (currentType : String) (startIndex : Nat)
    (textContent : String) : List StreamEvent × Nat :=
  if currentType = "text" ∧ textContent.length > 0 then
    ([.block { blockType := BlockTypeText, sequence := startIndex
               textContent := some textContent
               provider := some ProviderOpenRouter }], startIndex + 1)
  else ([], startIndex)

/-- Assembly of the finalization tail (streaming.go lines 836-942): the
pending flushed blocks, then the tool-call events, then one metadata event
— unless the tool-call loop failed, in which case `streamEvents` returns
that error instead of reaching the metadata emission. -/
def assembleFinal (pre : List StreamEvent)
    (tools : List StreamEvent × Nat × Option GoErr)
    (model stopReason : String) (usage : Option (Nat × Nat)) :
    List StreamEvent × Option GoErr :=
  match tools.2.2 with
  | some e => (pre ++ tools.1, some e)
  | none =>
      (pre ++ tools.1 ++
        [.metadata { model := model, stopReason := stopReason
                     inputTokens := (usage.map Prod.fst).getD 0
                     outputTokens := (usage.map Prod.snd).getD 0 }], none)

/-- The full finalization sequence, assembled from the flush steps and the
tool-call loop. -/
def finalizeStream (parseObj : String → Except String (List (String × GoVal)))
    (currentType : String) (currentIndex : Nat)
    (thinkingContent textContent : String)
    (m : List (Nat × AccToolCall)) (model stopReason : String)
    (usage : Option (Nat × Nat)) : List StreamEvent × Option GoErr :=
  let thinkingStep := flushThinking currentType currentIndex thinkingContent
  let textStep := flushText currentType thinkingStep.2 textContent
  assembleFinal (thinkingStep.1 ++ textStep.1)
    (finalizeToolCalls parseObj m 0 textStep.2) model stopReason usage

/-- The producer goroutine of `StreamResponse` (streaming.go lines 644-654):
all events written to the channel, followed by one error event when
`streamEvents` returned an error; then the channel closes. -/
def channelEvents (duringScan : List StreamEvent)
    (fin : List StreamEvent × Option GoErr) : List StreamEvent :=
  duringScan ++ fin.1 ++
    (match fin.2 with
     | some e => [.error e]
     | none => [])

end OpenRouter

/-! ## Lorem mock provider (src/providers/lorem/provider.go) -/

/-- Go `strings.Fields`: the whitespace-separated words of a string. -/
def goFields (s : String) : List String :=
  (s.split (fun c => c.isWhitespace)).filter (fun w => w ≠ "")

/-- Go `strings.Contains`. -/
def goContains (s sub : String) : Bool :=
  decide (sub.data <:+: s.data)

namespace Lorem

/-- Minimal request-parameter record (src/streaming.go `RequestParams`,
restricted to the fields the Lorem provider reads). -/
structure RequestParams where
  maxTokens : Option Nat := none
  thinkingEnabled : Option Bool := none
  tools : List String := []
  deriving Repr

/-- src/streaming.go `GetMaxTokens`. -/
def getMaxTokensOf (params : RequestParams) (defaultValue : Nat) : Nat :=
  match params.maxTokens with
  | some v => v
  | none => defaultValue

/-- A generate request (model, messages, optional params). -/
structure GenerateRequest where
  model : String
  messages : List Message
  params : Option RequestParams := none
  deriving Repr

/-- src/providers/lorem/provider.go `SupportsModel`. -/
def SupportsModel (model : String) : Bool :=
  model.startsWith "lorem-"

/-- src/providers/lorem/provider.go `isCutoffModel`. -/
def isCutoffModel (model : String) : Bool :=
  goContains model "cutoff" || goContains model "small"

/-- src/providers/lorem/provider.go `estimateTokens`: total word count of
all text contents. -/
def estimateTokens (messages : List Message) : Nat :=
  messages.foldl
    (fun total msg =>
      msg.blocks.foldl
        (fun t b =>
          match b.textContent with
          | some text => t + (goFields text).length
          | none => t)
        total)
    0

/-- Word-streaming loop of `streamTextBlock` (provider.go lines 441-466):
emits one text delta per word (word plus a trailing space), with the
max-tokens cutoff check applied only for cutoff models.  Returns the
events, the number of words sent, and the cutoff flag. -/
def streamWordsText (cutoffModel : Bool) (maxTokens blockIndex : Nat) :
    List String → Nat → List StreamEvent × Nat × Bool
  | [], wordsSent => ([], wordsSent, false)
  | w :: ws, wordsSent =>
      if cutoffModel ∧ maxTokens ≤ wordsSent then
        ([], wordsSent, true)
      else
        let ev : StreamEvent := .delta
          { blockIndex := blockIndex, deltaType := DeltaTypeText
            textDelta := some (w ++ " ") }
        let rest := streamWordsText cutoffModel maxTokens blockIndex ws
          (wordsSent + 1)
        (ev :: rest.1, rest.2)

/-- src/providers/lorem/provider.go `streamTextBlock`.  `genWords target`
models `strings.Fields(p.generateTextWords(target))`, the word list
produced by the external lorem generator for a target word count. -/
def streamTextBlock (genWords : Nat → List String) (blockIndex maxTokens : Nat)
    (model : String) : List StreamEvent × Nat × Bool :=
  let startEv : StreamEvent := .delta
    { blockIndex := blockIndex, blockType := some BlockTypeText }
  let cutoffModel := isCutoffModel model
  let targetWords :=
    if cutoffModel then maxTokens + maxTokens / 2 else maxTokens
  let words := genWords targetWords
  let run := streamWordsText cutoffModel maxTokens blockIndex words 0
  (startEv :: run.1, run.2)

/-- Word-streaming loop of `streamThinkingBlock` (provider.go lines
326-345): no cutoff check; thinking deltas. -/
def streamWordsThinking (blockIndex : Nat) :
    List String → Nat → List StreamEvent × Nat
  | [], wordsSent => ([], wordsSent)
  | w :: ws, wordsSent =>
      let ev : StreamEvent := .delta
        { blockIndex := blockIndex, deltaType := DeltaTypeThinking
          textDelta := some (w ++ " ") }
      let rest := streamWordsThinking blockIndex ws (wordsSent + 1)
      (ev :: rest.1, rest.2)

/-- src/providers/lorem/provider.go `streamThinkingBlock`: block-start
delta, one thinking delta per word, then the mock signature delta. -/
def streamThinkingBlock (genWords : Nat → List String)
    (blockIndex targetWords : Nat) : List StreamEvent × Nat :=
  let startEv : StreamEvent := .delta
    { blockIndex := blockIndex, blockType := some BlockTypeThinking }
  let words := genWords targetWords
  let run := streamWordsThinking blockIndex words 0
  let sigEv : StreamEvent := .delta
    { blockIndex := blockIndex, deltaType := DeltaTypeSignature
      signatureDelta := some "4k_a" }
  (startEv :: run.1 ++ [sigEv], run.2)

/-- Per-character JSON streaming of `streamToolUseBlockFromBuiltIn`
(provider.go lines 570-587). -/
def streamJSONChars (blockIndex : Nat) (jsonStr : String) : List StreamEvent :=
  jsonStr.data.map
    (fun c => .delta
      { blockIndex := blockIndex, deltaType := DeltaTypeJSON
        inputJSONDelta := some (String.singleton c) })

/-- src/providers/lorem/provider.go `streamToolUseBlockFromBuiltIn`.
`marshalToolInput name` models `json.MarshalIndent` of the mock input
chosen for the tool's function name.  Returns the events and the token
count `len(jsonStr)/4`. -/
def streamToolUseBlockFromBuiltIn (marshalToolInput : String → String)
    (blockIndex : Nat) (toolName : String) : List StreamEvent × Nat :=
  let toolID := "toolu_" ++ toolName ++ "_" ++ toString blockIndex
  let startEv : StreamEvent := .delta
    { blockIndex := blockIndex, blockType := some BlockTypeToolUse
      deltaType := DeltaTypeToolCallStart
      toolCallID := some toolID, toolCallName := some toolName }
  let jsonStr := marshalToolInput toolName
  (startEv :: streamJSONChars blockIndex jsonStr, jsonStr.length / 4)

/-- Post-processing of one text-block iteration of the rotation loop
(provider.go lines 203-224): on a cutoff the loop breaks with the block's
events and the updated token total; otherwise the loop's remaining output
follows the block's events. -/
def textStep (run : List StreamEvent × Nat × Bool)
    (rest : List StreamEvent × Nat × Bool) (totalOutputTokens : Nat) :
    List StreamEvent × Nat × Bool :=
  if run.2.2 then
    (run.1, totalOutputTokens + run.2.1, true)
  else
    (run.1 ++ rest.1, rest.2)

/-- The block-rotation loop of the Lorem `StreamResponse` goroutine
(provider.go lines 196-276): text blocks at indices ≡ 0 (mod 3) — and ≡ 1
when thinking is disabled — thinking blocks at ≡ 1 when enabled, tool_use
blocks otherwise when tools are enabled, with a break when fewer than 20
tokens remain for a tool block and a safety break once the block index
exceeds 100.  Returns the events, the final total output tokens, and
whether a text/thinking cutoff fired. -/
def streamLoop (genWords : Nat → List String)
    (marshalToolInput : String → String) (model : String)
    (thinkingEnabled toolsEnabled : Bool) (maxTokens : Nat)
    (tools : List String) (blockIndex totalOutputTokens toolIndex : Nat) :
    List StreamEvent × Nat × Bool :=
  if _h : totalOutputTokens < maxTokens ∧ blockIndex ≤ 100 then
    if blockIndex % 3 = 0 ∨ (blockIndex % 3 = 1 ∧ ¬thinkingEnabled) then
      textStep
        (streamTextBlock genWords blockIndex
          (min 20 (maxTokens - totalOutputTokens)) model)
        (streamLoop genWords marshalToolInput model thinkingEnabled
          toolsEnabled maxTokens tools (blockIndex + 1)
          (totalOutputTokens +
            (streamTextBlock genWords blockIndex
              (min 20 (maxTokens - totalOutputTokens)) model).2.1)
          toolIndex)
        totalOutputTokens
    else if blockIndex % 3 = 1 ∧ thinkingEnabled then
      ((streamThinkingBlock genWords blockIndex
          (min 20 (maxTokens - totalOutputTokens))).1 ++
        (streamLoop genWords marshalToolInput model thinkingEnabled
          toolsEnabled maxTokens tools (blockIndex + 1)
          (totalOutputTokens +
            (streamThinkingBlock genWords blockIndex
              (min 20 (maxTokens - totalOutputTokens))).2) toolIndex).1,
       (streamLoop genWords marshalToolInput model thinkingEnabled
          toolsEnabled maxTokens tools (blockIndex + 1)
          (totalOutputTokens +
            (streamThinkingBlock genWords blockIndex
              (min 20 (maxTokens - totalOutputTokens))).2) toolIndex).2)
    else if toolsEnabled then
      if maxTokens - totalOutputTokens < 20 then
        ([], totalOutputTokens, false)
      else
        ((streamToolUseBlockFromBuiltIn marshalToolInput blockIndex
            ((tools.get? (toolIndex % tools.length)).getD "")).1 ++
          (streamLoop genWords marshalToolInput model thinkingEnabled
            toolsEnabled maxTokens tools (blockIndex + 1)
            (totalOutputTokens +
              (streamToolUseBlockFromBuiltIn marshalToolInput blockIndex
                ((tools.get? (toolIndex % tools.length)).getD "")).2)
            (toolIndex + 1)).1,
         (streamLoop genWords marshalToolInput model thinkingEnabled
            toolsEnabled maxTokens tools (blockIndex + 1)
            (totalOutputTokens +
              (streamToolUseBlockFromBuiltIn marshalToolInput blockIndex
                ((tools.get? (toolIndex % tools.length)).getD "")).2)
            (toolIndex + 1)).2)
    else
      streamLoop genWords marshalToolInput model thinkingEnabled
        toolsEnabled maxTokens tools (blockIndex + 1) totalOutputTokens
        toolIndex
  else
    ([], totalOutputTokens, false)
  termination_by 101 - blockIndex

/-- src/providers/lorem/provider.go `StreamResponse`: validation, the block
rotation loop, and the final metadata event.  Time delays and context
cancellation are not modelled; `genWords` and `marshalToolInput` model the
external lorem generator and `json.MarshalIndent`. -/
def StreamResponse (genWords : Nat → List String)
    (marshalToolInput : String → String) (req : GenerateRequest) :
    Except GoErr (List StreamEvent) :=
  if !SupportsModel req.model then
    .error (.modelError "" req.model ProviderLorem
      "model not supported by Lorem provider (must start with 'lorem-')"
      (some (.sentinel .invalidModel)))
  else
    let params := req.params.getD {}
    let maxTokens := getMaxTokensOf params 4096
    let thinkingEnabled := params.thinkingEnabled.getD false
    let toolsEnabled := !params.tools.isEmpty
    let run := streamLoop genWords marshalToolInput req.model thinkingEnabled
      toolsEnabled maxTokens params.tools 0 0 0
    let stopReason :=
      if run.2.2 then "max_tokens"
      else if maxTokens ≤ run.2.1 then "max_tokens"
      else "end_turn"
    let md : StreamMetadata :=
      { model := req.model
        inputTokens := estimateTokens req.messages
        outputTokens := run.2.1
        stopReason := stopReason
        responseMetadata := [("mock", .bool true), ("provider", .str "lorem")] }
    .ok (run.1 ++ [.metadata md])

end Lorem

/-! ## Spec-side definitions for the message-shape transforms -/

/-- Spec-side description of the tool_result boundary split (§4.5 step 2):
an assistant block sequence is split into runs terminated by each
tool_result, each tool_result becoming its own message of role `resRole`. -/
def splitRunsSpec (resRole : String) (blocks : List Block) : List Message :=
  let run := blocks.takeWhile (fun b => !(b.blockType = BlockTypeToolResult))
  let post := blocks.dropWhile (fun b => !(b.blockType = BlockTypeToolResult))
  if hpost : post.isEmpty then
    if run.isEmpty then [] else [⟨"assistant", run⟩]
  else
    (if run.isEmpty then [] else [⟨"assistant", run⟩]) ++
      ⟨resRole, [post.head
        (fun hnil => absurd (List.isEmpty_iff.mpr hnil) hpost)]⟩ ::
        splitRunsSpec resRole post.tail
  termination_by blocks.length
  decreasing_by
    have hlen : (blocks.dropWhile
        (fun b => !(b.blockType = BlockTypeToolResult))).length ≤
        blocks.length :=
      List.Sublist.length_le (List.dropWhile_sublist _)
    have hpos : 0 < (blocks.dropWhile
        (fun b => !(b.blockType = BlockTypeToolResult))).length :=
      List.length_pos.mpr
        (fun hnil => absurd (List.isEmpty_iff.mpr hnil) hpost)
    simp only [List.length_tail]
    omega

/-- The ordered sequence of (role, block) pairs of a message list, the view
in which §8's merge-idempotence property compares the two sides. -/
def rolePairs (messages : List Message) : List (String × Block) :=
  messages.flatMap (fun m => m.blocks.map (fun b => (m.role, b)))

/-- Concatenation of all block lists of a message list, in order. -/
def allBlocks (messages : List Message) : List Block :=
  messages.flatMap (fun m => m.blocks)

/-- Per-message split step of the `splitMessagesAtToolResults` functions
(parameterized by the role given to tool_result messages). -/
def splitOneTR (resRole : String) (msg : Message) : List Message :=
  if msg.role ≠ "assistant" then [msg] else walkTR resRole [] msg.blocks

/-- Whether an emitted Anthropic SDK block's tool-use ID (if it is a
tool_use or tool_result block) matches `^[a-zA-Z0-9_-]+$`. -/
def toolIdOk : Anthropic.ABlock → Bool
  | .toolUse id _ _ => Anthropic.matchesToolIDPattern id
  | .toolResult id _ _ => Anthropic.matchesToolIDPattern id
  | _ => true

/-- Whether an emitted Anthropic SDK block, if it is a native reasoning
block, carries a non-empty signature. -/
def thinkingSigOk : Anthropic.ABlock → Bool
  | .thinking sig _ => sig ≠ ""
  | _ => true

/-- A concrete word generator: exactly `n` copies of "lorem" (a realization
of the lorem generator's word stream, used in concrete instances). -/
def replicateWords (n : Nat) : List String := List.replicate n "lorem"

/-- A concrete `json.MarshalIndent` oracle that is never consulted in the
tool-free scenarios below. -/
def emptyMarshal (_ : String) : String := ""

/-- A concrete JSON-object parse oracle that rejects every input (models
`json.Unmarshal` on buffers that are not valid JSON). -/
def rejectAllJSON (_ : String) : Except String (List (String × GoVal)) :=
  .error "invalid character"

/-! ## Concrete example data used in instances -/

/-- A provider-side web_search tool_use block from backend "google". -/
def googleProviderSideToolUse : Block :=
  { blockType := BlockTypeToolUse
    content := some [("tool_use_id", .str "g1"),
                     ("tool_name", .str "web_search"), ("input", .obj [])]
    executionSide := some ExecutionSideProvider
    provider := some ProviderGoogle }

/-- A plain client-importable tool_use block with the given ID. -/
def toolUseBlk (id : String) : Block :=
  { blockType := BlockTypeToolUse
    content := some [("tool_use_id", .str id), ("tool_name", .str "srch"),
                     ("input", .obj [])] }

/-- A tool_result block referencing the given tool-use ID. -/
def toolResultBlk (id : String) : Block :=
  { blockType := BlockTypeToolResult
    content := some [("tool_use_id", .str id)] }

/-- A thinking block with no signature. -/
def thinkingBlk : Block :=
  { blockType := BlockTypeThinking, textContent := some "th" }

/-- A tool_use block from backend "anthropic" whose provider data replays
as a server_tool_use with an unsanitized ID. -/
def anthropicReplayToolUse : Block :=
  { blockType := BlockTypeToolUse
    content := some [("tool_use_id", .str "bad id"),
                     ("tool_name", .str "t"), ("input", .obj [])]
    provider := some ProviderAnthropic
    providerData := some (.parsedJSON (.obj
      [("type", .str "server_tool_use"), ("id", .str "bad id"),
       ("input", .obj [])])) }

/-- A thinking block from backend "anthropic" whose provider data carries a
signature AND replays as a server_tool_use. -/
def anthropicReplayThinking : Block :=
  { blockType := BlockTypeThinking
    textContent := some "T"
    provider := some ProviderAnthropic
    providerData := some (.parsedJSON (.obj
      [("type", .str "server_tool_use"), ("id", .str "x"),
       ("input", .obj []), ("signature", .str "sig")])) }

/-- A thinking block carrying only a signature in its provider data. -/
def signedThinkingBlk : Block :=
  { blockType := BlockTypeThinking
    textContent := some "T"
    providerData := some (.parsedJSON (.obj [("signature", .str "s")])) }

/-! # Theorems -/

/-! ## C5: CanReplayToProvider -/

/-- C5 counterexample: a server-side (backend-executed) tool_use block from
backend "google" is NOT replayable to backend "anthropic" — the code treats
every non-client execution side (server, provider, unset) alike and demands
a matching source backend, while the claim states that server-side tool_use
blocks are always replayable. -/
theorem canReplay_server_counterexample :
    (Block.mk BlockTypeToolUse 0 none none (some ExecutionSideServer)
      (some ProviderGoogle) none []).GetExecutionSide = ExecutionSideServer ∧
    (Block.mk BlockTypeToolUse 0 none none (some ExecutionSideServer)
      (some ProviderGoogle) none []).CanReplayToProvider ProviderAnthropic
      = false := by
  constructor <;> rfl

/-- C5 (amended): `CanReplayToProvider` returns true for every block that is
not a tool_use block; returns true for client-side blocks; and for every
other tool_use block — provider-side, server-side, or with no execution
side — returns true iff the block's source backend equals the target. -/
theorem canReplay_characterization (b : Block) (t : String) :
    (b.blockType ≠ BlockTypeToolUse → b.CanReplayToProvider t = true) ∧
    (b.executionSide = some ExecutionSideClient →
      b.CanReplayToProvider t = true) ∧
    (b.blockType = BlockTypeToolUse →
      b.executionSide ≠ some ExecutionSideClient →
      (b.CanReplayToProvider t = true ↔ b.provider = some t)) := by
  refine ⟨fun h => ?_, fun h => ?_, fun h1 h2 => ?_⟩
  · simp [Block.CanReplayToProvider, h]
  · simp [Block.CanReplayToProvider, Block.GetExecutionSide, h]
  · have hside : ¬ b.GetExecutionSide = ExecutionSideClient := by
      unfold Block.GetExecutionSide
      match hs : b.executionSide with
      | none => simp [ExecutionSideClient]
      | some s =>
          simp only
          intro hcontra
          exact h2 (by rw [hs, hcontra])
    rw [Block.CanReplayToProvider, if_neg (by simp [h1]), if_neg hside]
    unfold Block.IsFromProvider
    match hp : b.provider with
    | none => simp
    | some p => simp

/-- C5 witness: a server-side tool_use block from "anthropic" is replayable
to "anthropic". -/
theorem canReplay_characterization_witness :
    (Block.mk BlockTypeToolUse 0 none none (some ExecutionSideServer)
      (some ProviderAnthropic) none []).CanReplayToProvider ProviderAnthropic
      = true :=
  ((canReplay_characterization
      (Block.mk BlockTypeToolUse 0 none none (some ExecutionSideServer)
        (some ProviderAnthropic) none []) ProviderAnthropic).2.2
    rfl (by decide)).mpr rfl

/-! ## C6: HTTP error classification -/

/-- C6 counterexample: for upstream status 500 (with a parseable error
body), `handleErrorResponse` produces a provider-unavailable error with
`Retryable: true` (the default branch marks every status ≥ 500 retryable),
and `IsRetryable` reports true — the claim states 500 is not retryable. -/
theorem handle500_retryable_counterexample :
    OpenRouter.handleErrorResponse 500 (some "internal error") "" =
      .providerError ErrorCodeProviderUnavailable ProviderOpenRouter 500
        "internal error" true (some (.sentinel .providerUnavailable)) ∧
    IsRetryable (OpenRouter.handleErrorResponse 500 (some "internal error") "")
      = true := by
  constructor <;> rfl

/-- C6 (amended): classification of upstream HTTP error statuses by
`handleErrorResponse` (on a parseable error body with non-empty message):
401 and 403 are authentication errors (`IsAuthError` true); 429 is a
rate-limited retryable error; 402 a provider-unavailable non-retryable
error citing insufficient credits; 408 a timeout retryable error; 404 an
invalid-model error; 502/503/504 provider-unavailable retryable errors; and
500 a provider-unavailable error that is ALSO retryable (the code marks
every default-branch status ≥ 500 retryable). -/
theorem httpErrorClassification (msg body : String) (hmsg : msg ≠ "") :
    IsAuthError (OpenRouter.handleErrorResponse 401 (some msg) body) = true ∧
    IsAuthError (OpenRouter.handleErrorResponse 403 (some msg) body) = true ∧
    OpenRouter.handleErrorResponse 429 (some msg) body =
      .providerError ErrorCodeRateLimited ProviderOpenRouter 429 msg true
        (some (.sentinel .rateLimited)) ∧
    IsRetryable (OpenRouter.handleErrorResponse 429 (some msg) body) = true ∧
    OpenRouter.handleErrorResponse 402 (some msg) body =
      .providerError ErrorCodeProviderUnavailable ProviderOpenRouter 402
        ("insufficient credits: " ++ msg) false
        (some (.sentinel .providerUnavailable)) ∧
    IsRetryable (OpenRouter.handleErrorResponse 402 (some msg) body) = false ∧
    OpenRouter.handleErrorResponse 408 (some msg) body =
      .providerError ErrorCodeTimeout ProviderOpenRouter 408 msg true
        (some (.sentinel .timeout)) ∧
    IsRetryable (OpenRouter.handleErrorResponse 408 (some msg) body) = true ∧
    OpenRouter.handleErrorResponse 404 (some msg) body =
      .modelError "" "" ProviderOpenRouter msg
        (some (.sentinel .invalidModel)) ∧
    OpenRouter.handleErrorResponse 502 (some msg) body =
      .providerError ErrorCodeProviderUnavailable ProviderOpenRouter 502 msg
        true (some (.sentinel .providerUnavailable)) ∧
    IsRetryable (OpenRouter.handleErrorResponse 502 (some msg) body) = true ∧
    OpenRouter.handleErrorResponse 503 (some msg) body =
      .providerError ErrorCodeProviderUnavailable ProviderOpenRouter 503 msg
        true (some (.sentinel .providerUnavailable)) ∧
    IsRetryable (OpenRouter.handleErrorResponse 503 (some msg) body) = true ∧
    OpenRouter.handleErrorResponse 504 (some msg) body =
      .providerError ErrorCodeProviderUnavailable ProviderOpenRouter 504 msg
        true (some (.sentinel .providerUnavailable)) ∧
    IsRetryable (OpenRouter.handleErrorResponse 504 (some msg) body) = true ∧
    OpenRouter.handleErrorResponse 500 (some msg) body =
      .providerError ErrorCodeProviderUnavailable ProviderOpenRouter 500 msg
        true (some (.sentinel .providerUnavailable)) ∧
    IsRetryable (OpenRouter.handleErrorResponse 500 (some msg) body)
      = true := by
  refine ⟨rfl, rfl, rfl, rfl, rfl, rfl, rfl, rfl, ?_, rfl, rfl, rfl, rfl,
    rfl, rfl, rfl, rfl⟩
  simp [OpenRouter.handleErrorResponse, hmsg]

/-- C6 witness: the classification at message "boom": 429 is retryable and
404 maps to an invalid-model error. -/
theorem httpErrorClassification_witness :
    IsRetryable (OpenRouter.handleErrorResponse 429 (some "boom") "") = true ∧
    OpenRouter.handleErrorResponse 404 (some "boom") "" =
      .modelError "" "" ProviderOpenRouter "boom"
        (some (.sentinel .invalidModel)) :=
  ⟨(httpErrorClassification "boom" "" (by decide)).2.2.2.1,
   (httpErrorClassification "boom" "" (by decide)).2.2.2.2.2.2.2.2.1⟩

/-! ## Shared list lemmas for the message-shape transforms -/

lemma takeWhile_append_of_all {f : Block → Bool} :
    ∀ (l₁ : List Block), (∀ b ∈ l₁, f b = true) →
    ∀ l₂, (l₁ ++ l₂).takeWhile f = l₁ ++ l₂.takeWhile f := by
  intro l₁
  induction l₁ with
  | nil => intro _ l₂; simp
  | cons a l ih =>
      intro h l₂
      have ha : f a = true := h a (by simp)
      simp only [List.cons_append, List.takeWhile_cons, ha, if_true,
        List.cons.injEq, true_and]
      exact ih (fun b hb => h b (by simp [hb])) l₂

lemma dropWhile_append_of_all {f : Block → Bool} :
    ∀ (l₁ : List Block), (∀ b ∈ l₁, f b = true) →
    ∀ l₂, (l₁ ++ l₂).dropWhile f = l₂.dropWhile f := by
  intro l₁
  induction l₁ with
  | nil => intro _ l₂; simp
  | cons a l ih =>
      intro h l₂
      have ha : f a = true := h a (by simp)
      simp only [List.cons_append, List.dropWhile_cons, ha, if_true]
      exact ih (fun b hb => h b (by simp [hb])) l₂

lemma allBlocks_append (xs ys : List Message) :
    allBlocks (xs ++ ys) = allBlocks xs ++ allBlocks ys := by
  simp [allBlocks]

lemma allBlocks_cons (m : Message) (xs : List Message) :
    allBlocks (m :: xs) = m.blocks ++ allBlocks xs := by
  simp [allBlocks]

/-! ## walkTR: structural lemmas -/

/-- Block content of a `walkTR` result: nothing dropped, duplicated, or
reordered. -/
lemma walkTR_allBlocks (r : String) :
    ∀ (bs cur : List Block), allBlocks (walkTR r cur bs) = cur ++ bs := by
  intro bs
  induction bs with
  | nil =>
      intro cur
      by_cases h : cur.isEmpty
      · simp [walkTR, h, allBlocks, List.isEmpty_iff.mp h]
      · simp [walkTR, h, allBlocks]
  | cons b bs ih =>
      intro cur
      by_cases h : b.blockType = BlockTypeToolResult
      · by_cases hc : cur.isEmpty
        · have e1 : walkTR r cur (b :: bs) = ⟨r, [b]⟩ :: walkTR r [] bs := by
            simp [walkTR, h, hc]
          rw [e1, allBlocks_cons, ih [], List.isEmpty_iff.mp hc]
          simp
        · have e1 : walkTR r cur (b :: bs) =
              ⟨"assistant", cur⟩ :: ⟨r, [b]⟩ :: walkTR r [] bs := by
            simp [walkTR, h, hc]
          rw [e1, allBlocks_cons, allBlocks_cons, ih []]
          simp
      · have e1 : walkTR r cur (b :: bs) = walkTR r (cur ++ [b]) bs := by
          simp [walkTR, h]
        rw [e1, ih (cur ++ [b]), List.append_assoc]
        rfl

/-- Assistant messages produced by `walkTR` are non-empty and contain no
tool_result block (provided the carried buffer contains none). -/
lemma walkTR_assistant_ok (r : String) (hr : r ≠ "assistant") :
    ∀ (bs cur : List Block),
    (∀ b ∈ cur, b.blockType ≠ BlockTypeToolResult) →
    ∀ m ∈ walkTR r cur bs, m.role = "assistant" →
      m.blocks ≠ [] ∧ ∀ b ∈ m.blocks, b.blockType ≠ BlockTypeToolResult := by
  intro bs
  induction bs with
  | nil =>
      intro cur hcur m hm hrole
      by_cases h : cur.isEmpty
      · simp [walkTR, h] at hm
      · simp only [walkTR, h, Bool.false_eq_true, if_false,
          List.mem_singleton] at hm
        subst hm
        exact ⟨by simpa [List.isEmpty_iff] using h, hcur⟩
  | cons b bs ih =>
      intro cur hcur m hm hrole
      by_cases h : b.blockType = BlockTypeToolResult
      · simp only [walkTR, h, if_pos, List.mem_append, List.mem_cons] at hm
        rcases hm with hm | hm | hm
        · by_cases hc : cur.isEmpty
          · simp [hc] at hm
          · simp only [hc, Bool.false_eq_true, if_false,
              List.mem_singleton] at hm
            subst hm
            exact ⟨by simpa [List.isEmpty_iff] using hc, hcur⟩
        · subst hm
          exact absurd hrole hr
        · exact ih [] (by simp) m hm hrole
      · rw [walkTR, if_neg h] at hm
        exact ih (cur ++ [b])
          (by
            intro x hx
            rcases List.mem_append.mp hx with hx | hx
            · exact hcur x hx
            · simp only [List.mem_singleton] at hx
              subst hx
              exact h)
          m hm hrole

/-- A block list without tool_result blocks is kept whole by `walkTR`. -/
lemma walkTR_no_toolresult (r : String) :
    ∀ (bs cur : List Block),
    (∀ b ∈ bs, b.blockType ≠ BlockTypeToolResult) →
    walkTR r cur bs =
      if (cur ++ bs).isEmpty then [] else [⟨"assistant", cur ++ bs⟩] := by
  intro bs
  induction bs with
  | nil => intro cur _; rw [List.append_nil]; simp [walkTR]
  | cons b bs ih =>
      intro cur hbs
      have hb : b.blockType ≠ BlockTypeToolResult := hbs b (by simp)
      have e1 : walkTR r cur (b :: bs) = walkTR r (cur ++ [b]) bs := by
        simp [walkTR, hb]
      rw [e1, ih (cur ++ [b]) (fun x hx => hbs x (by simp [hx]))]
      simp

/-- The two source split functions, expressed as flat maps of the
per-message step. -/
lemma or_split_eq (messages : List Message) :
    OpenRouter.splitMessagesAtToolResults messages =
      messages.flatMap (splitOneTR "tool") := rfl

lemma anth_split_eq (messages : List Message) :
    Anthropic.splitMessagesAtToolResults messages =
      messages.flatMap (splitOneTR "user") := rfl

/-! ## mergeAux: structural lemmas -/

/-- `mergeConsecutiveSameRoleMessages` in `mergeAux` form. -/
lemma or_merge_eq (messages : List Message) :
    OpenRouter.mergeConsecutiveSameRoleMessages messages =
      match messages with
      | [] => []
      | m :: ms => mergeAux m ms := rfl

/-- Merging never drops, duplicates, or reorders blocks. -/
lemma mergeAux_allBlocks :
    ∀ (ms : List Message) (cur : Message),
    allBlocks (mergeAux cur ms) = cur.blocks ++ allBlocks ms := by
  intro ms
  induction ms with
  | nil => intro cur; simp [mergeAux, allBlocks]
  | cons m ms ih =>
      intro cur
      by_cases h : m.role = cur.role
      · simp only [mergeAux, h, if_pos]
        rw [ih ⟨cur.role, cur.blocks ++ m.blocks⟩]
        simp [allBlocks_cons, List.append_assoc]
      · simp only [mergeAux, h, if_neg, if_false]
        rw [allBlocks_cons, ih m, allBlocks_cons]

/-- The head of a `mergeAux` result carries the role of `cur`. -/
lemma mergeAux_head_role :
    ∀ (ms : List Message) (cur : Message),
    (mergeAux cur ms).head?.map Message.role = some cur.role := by
  intro ms
  induction ms with
  | nil => intro cur; simp [mergeAux]
  | cons m ms ih =>
      intro cur
      by_cases h : m.role = cur.role
      · simp only [mergeAux, h, if_pos]
        exact ih ⟨cur.role, cur.blocks ++ m.blocks⟩
      · simp [mergeAux, h]

/-- Adjacent messages in a `mergeAux` result have distinct roles. -/
lemma mergeAux_chain :
    ∀ (ms : List Message) (cur : Message),
    List.Chain' (fun a b => a.role ≠ b.role) (mergeAux cur ms) := by
  intro ms
  induction ms with
  | nil => intro cur; simp [mergeAux]
  | cons m ms ih =>
      intro cur
      by_cases h : m.role = cur.role
      · simp only [mergeAux, h, if_pos]
        exact ih ⟨cur.role, cur.blocks ++ m.blocks⟩
      · simp only [mergeAux, h, if_neg, if_false]
        rw [List.chain'_cons']
        refine ⟨?_, ih m⟩
        intro y hy
        have hhead := mergeAux_head_role ms m
        rw [hy] at hhead
        simp only [Option.map_some', Option.some.injEq] at hhead
        rw [hhead]
        exact fun hc => h hc.symm

/-- On a list whose adjacent roles already differ, `mergeAux` is the
identity. -/
lemma mergeAux_id :
    ∀ (ms : List Message) (cur : Message),
    List.Chain' (fun a b => a.role ≠ b.role) (cur :: ms) →
    mergeAux cur ms = cur :: ms := by
  intro ms
  induction ms with
  | nil => intro cur _; simp [mergeAux]
  | cons m ms ih =>
      intro cur hchain
      rw [List.chain'_cons] at hchain
      have h : ¬ m.role = cur.role := fun hc => hchain.1 hc.symm
      simp only [mergeAux, h, if_neg, if_false]
      rw [ih m hchain.2]

/-- Assistant-message well-formedness is preserved by `mergeAux`. -/
lemma mergeAux_assistant_ok :
    ∀ (ms : List Message) (cur : Message),
    (cur.role = "assistant" →
      cur.blocks ≠ [] ∧ ∀ b ∈ cur.blocks, b.blockType ≠ BlockTypeToolResult) →
    (∀ m ∈ ms, m.role = "assistant" →
      m.blocks ≠ [] ∧ ∀ b ∈ m.blocks, b.blockType ≠ BlockTypeToolResult) →
    ∀ m ∈ mergeAux cur ms, m.role = "assistant" →
      m.blocks ≠ [] ∧ ∀ b ∈ m.blocks, b.blockType ≠ BlockTypeToolResult := by
  intro ms
  induction ms with
  | nil =>
      intro cur hcur _ m hm hrole
      simp only [mergeAux, List.mem_singleton] at hm
      subst hm
      exact hcur hrole
  | cons m0 ms ih =>
      intro cur hcur hms m hm hrole
      by_cases h : m0.role = cur.role
      · simp only [mergeAux, h, if_pos] at hm
        refine ih ⟨cur.role, cur.blocks ++ m0.blocks⟩ ?_ ?_ m hm hrole
        · intro hr
          simp only at hr
          have h1 := hcur hr
          have h2 := hms m0 (by simp) (by rw [h, hr])
          constructor
          · simp [h1.1]
          · intro b hb
            rcases List.mem_append.mp hb with hb | hb
            · exact h1.2 b hb
            · exact h2.2 b hb
        · exact fun x hx => hms x (by simp [hx])
      · simp only [mergeAux, h, if_neg, if_false, List.mem_cons] at hm
        rcases hm with hm | hm
        · subst hm
          exact hcur hrole
        · exact ih m0 (hms m0 (by simp)) (fun x hx => hms x (by simp [hx]))
            m hm hrole

/-! ## Split/merge composition lemmas -/

/-- Every assistant message produced by the OpenRouter split is non-empty
and free of tool_result blocks. -/
lemma split_assistant_ok (messages : List Message) :
    ∀ m ∈ OpenRouter.splitMessagesAtToolResults messages,
    m.role = "assistant" →
      m.blocks ≠ [] ∧ ∀ b ∈ m.blocks, b.blockType ≠ BlockTypeToolResult := by
  intro m hm hrole
  rw [or_split_eq] at hm
  rcases List.mem_flatMap.mp hm with ⟨msg, _, hmem⟩
  simp only [splitOneTR] at hmem
  by_cases hr : msg.role ≠ "assistant"
  · rw [if_pos hr] at hmem
    rw [List.mem_singleton.mp hmem] at hrole
    exact absurd hrole hr
  · rw [if_neg hr] at hmem
    exact walkTR_assistant_ok "tool" (by decide) msg.blocks [] (by simp)
      m hmem hrole

/-- The merge step preserves assistant-message well-formedness. -/
lemma merge_assistant_ok (messages : List Message)
    (h : ∀ m ∈ messages, m.role = "assistant" →
      m.blocks ≠ [] ∧ ∀ b ∈ m.blocks, b.blockType ≠ BlockTypeToolResult) :
    ∀ m ∈ OpenRouter.mergeConsecutiveSameRoleMessages messages,
    m.role = "assistant" →
      m.blocks ≠ [] ∧ ∀ b ∈ m.blocks, b.blockType ≠ BlockTypeToolResult := by
  rw [or_merge_eq]
  match messages with
  | [] => simp
  | m0 :: ms =>
      exact mergeAux_assistant_ok ms m0 (h m0 (by simp))
        (fun x hx => h x (by simp [hx]))

/-- The split is the identity on lists whose assistant messages are
non-empty and tool_result-free. -/
lemma split_id_on_ok :
    ∀ (messages : List Message),
    (∀ m ∈ messages, m.role = "assistant" →
      m.blocks ≠ [] ∧ ∀ b ∈ m.blocks, b.blockType ≠ BlockTypeToolResult) →
    OpenRouter.splitMessagesAtToolResults messages = messages := by
  intro messages
  induction messages with
  | nil => intro _; rfl
  | cons msg rest ih =>
      intro h
      rw [or_split_eq, List.flatMap_cons, ← or_split_eq,
        ih (fun x hx => h x (by simp [hx]))]
      by_cases hr : msg.role ≠ "assistant"
      · simp [splitOneTR, hr]
      · have hrole : msg.role = "assistant" := not_not.mp hr
        have hmsg := h msg (by simp) hrole
        simp only [splitOneTR, hr, if_false]
        rw [walkTR_no_toolresult "tool" msg.blocks [] hmsg.2]
        have : ¬ (([] : List Block) ++ msg.blocks).isEmpty := by
          simpa [List.isEmpty_iff] using hmsg.1
        simp only [this, Bool.false_eq_true, if_false, List.nil_append]
        have : (⟨"assistant", msg.blocks⟩ : Message) = msg := by
          cases msg with
          | mk role blocks => simp_all
        rw [this, if_neg (by simpa [List.isEmpty_iff] using hmsg.1)]
        rfl


/-- The merge output has pairwise-distinct adjacent roles. -/
lemma merge_chain (messages : List Message) :
    List.Chain' (fun a b => a.role ≠ b.role)
      (OpenRouter.mergeConsecutiveSameRoleMessages messages) := by
  rw [or_merge_eq]
  match messages with
  | [] => simp
  | m :: ms => exact mergeAux_chain ms m

/-- The merge step is idempotent. -/
lemma merge_idem (messages : List Message) :
    OpenRouter.mergeConsecutiveSameRoleMessages
      (OpenRouter.mergeConsecutiveSameRoleMessages messages) =
    OpenRouter.mergeConsecutiveSameRoleMessages messages := by
  have hchain := merge_chain messages
  match h : OpenRouter.mergeConsecutiveSameRoleMessages messages with
  | [] => rfl
  | m :: ms =>
      rw [h] at hchain
      rw [or_merge_eq]
      exact mergeAux_id ms m hchain

/-- Block-content preservation of the merge step. -/
lemma merge_allBlocks (messages : List Message) :
    allBlocks (OpenRouter.mergeConsecutiveSameRoleMessages messages) =
      allBlocks messages := by
  rw [or_merge_eq]
  match messages with
  | [] => rfl
  | m :: ms => rw [mergeAux_allBlocks ms m, allBlocks_cons]

/-- Block-content preservation of the split step. -/
lemma split_allBlocks (messages : List Message) :
    allBlocks (OpenRouter.splitMessagesAtToolResults messages) =
      allBlocks messages := by
  induction messages with
  | nil => rfl
  | cons msg rest ih =>
      rw [or_split_eq, List.flatMap_cons, allBlocks_append, ← or_split_eq, ih,
        allBlocks_cons]
      by_cases hr : msg.role ≠ "assistant"
      · simp [splitOneTR, hr, allBlocks]
      · simp only [splitOneTR, hr, if_false]
        rw [walkTR_allBlocks "tool" msg.blocks []]
        rfl

/-! ## C8: merge/split idempotence -/

/-- C8: for every message list `m`, `merge(split(m))` equals
`merge(split(merge(split(m))))` as the ordered sequence of (role, block)
pairs, where `split` is `splitMessagesAtToolResults` and `merge` is
`mergeConsecutiveSameRoleMessages` of the OpenRouter adapter. -/
theorem mergeSplit_idempotent (m : List Message) :
    rolePairs (OpenRouter.mergeConsecutiveSameRoleMessages
      (OpenRouter.splitMessagesAtToolResults m)) =
    rolePairs (OpenRouter.mergeConsecutiveSameRoleMessages
      (OpenRouter.splitMessagesAtToolResults
        (OpenRouter.mergeConsecutiveSameRoleMessages
          (OpenRouter.splitMessagesAtToolResults m)))) := by
  have hok := split_assistant_ok m
  have hok2 := merge_assistant_ok _ hok
  rw [split_id_on_ok _ hok2, merge_idem]

/-! ## C10: split/merge content preservation -/

/-- C10: the split-then-merge pipeline preserves the conversation content
exactly — the concatenation of all block lists of the output equals that of
the input — and the split step maps every non-assistant message through
unchanged, in place. -/
theorem splitMerge_preserves_blocks :
    (∀ msgs : List Message,
      allBlocks (OpenRouter.mergeConsecutiveSameRoleMessages
        (OpenRouter.splitMessagesAtToolResults msgs)) = allBlocks msgs) ∧
    (∀ (pre post : List Message) (msg : Message), msg.role ≠ "assistant" →
      OpenRouter.splitMessagesAtToolResults (pre ++ msg :: post) =
        OpenRouter.splitMessagesAtToolResults pre ++
          msg :: OpenRouter.splitMessagesAtToolResults post) := by
  constructor
  · intro msgs
    rw [merge_allBlocks, split_allBlocks]
  · intro pre post msg hrole
    rw [or_split_eq, or_split_eq, or_split_eq, List.flatMap_append,
      List.flatMap_cons]
    simp only [splitOneTR]
    rw [if_pos hrole]
    rfl

/-- C10 witness: a user message passes through the split in place, and the
pipeline preserves the blocks of a singleton list. -/
theorem splitMerge_preserves_blocks_witness :
    OpenRouter.splitMessagesAtToolResults
        ([] ++ Message.mk "user" [] :: []) =
      OpenRouter.splitMessagesAtToolResults [] ++
        Message.mk "user" [] :: OpenRouter.splitMessagesAtToolResults [] ∧
    allBlocks (OpenRouter.mergeConsecutiveSameRoleMessages
      (OpenRouter.splitMessagesAtToolResults [Message.mk "user" []])) =
      allBlocks [Message.mk "user" []] :=
  ⟨splitMerge_preserves_blocks.2 [] [] (Message.mk "user" []) (by decide),
   splitMerge_preserves_blocks.1 [Message.mk "user" []]⟩

/-! ## C1: the cross-provider splitter refines its spec description -/

lemma takeWhile_eq_self_of_all {f : Block → Bool} (l : List Block)
    (h : ∀ b ∈ l, f b = true) : l.takeWhile f = l := by
  have := takeWhile_append_of_all l h []
  simpa using this

lemma dropWhile_eq_nil_of_all {f : Block → Bool} (l : List Block)
    (h : ∀ b ∈ l, f b = true) : l.dropWhile f = [] := by
  have := dropWhile_append_of_all l h []
  simpa using this

/-- Unfolding of `splitSpecBlocks` when no cross-provider server tool
occurs. -/
lemma splitSpecBlocks_nil_case (p : String) (blocks : List Block)
    (hd : blocks.dropWhile (fun b => !crossProviderServerTool b p) = []) :
    splitSpecBlocks p blocks =
      if (blocks.takeWhile (fun b => !crossProviderServerTool b p)).isEmpty
      then []
      else [⟨"assistant",
        blocks.takeWhile (fun b => !crossProviderServerTool b p)⟩] := by
  rw [splitSpecBlocks]
  simp only [hd, List.isEmpty_nil, dite_true]

/-- Unfolding of `splitSpecBlocks` at the first cross-provider server
tool. -/
lemma splitSpecBlocks_cons_case (p : String) (blocks : List Block)
    (t : Block) (rest : List Block)
    (hd : blocks.dropWhile (fun b => !crossProviderServerTool b p)
      = t :: rest) :
    splitSpecBlocks p blocks =
      (if (blocks.takeWhile (fun b => !crossProviderServerTool b p)).isEmpty
       then []
       else [⟨"assistant",
         blocks.takeWhile (fun b => !crossProviderServerTool b p)⟩]) ++
      [syntheticAssistantMessage (specToolName t)] ++
      [syntheticUserMessage (specUserText rest)] ++
      splitSpecBlocks p (rest.drop (specConsumed rest)) := by
  rw [splitSpecBlocks]
  simp only [hd, List.isEmpty_cons, Bool.false_eq_true, dite_false,
    List.head_cons, List.tail_cons]

/-- The payload computed by the source (`FindToolResultBlocks` followed by
`FormatToolResults`) agrees with the spec-side description. -/
lemma findFormat_eq_spec (rest : List Block) :
    FormatToolResults (FindToolResultBlocks rest).1 = specUserText rest ∧
    (FindToolResultBlocks rest).2 = specConsumed rest := by
  match rest with
  | [] => exact ⟨rfl, rfl⟩
  | r :: rs =>
      by_cases h : r.blockType = BlockTypeText
      · constructor
        · show FormatToolResults (FindToolResultBlocks (r :: rs)).1
            = specUserText (r :: rs)
          simp only [FindToolResultBlocks, h, if_pos, specUserText]
          cases hr : r.textContent <;>
            simp [FormatToolResults, hr]
        · simp [FindToolResultBlocks, specConsumed, h]
      · constructor <;>
          simp [FindToolResultBlocks, FormatToolResults, specUserText,
            specConsumed, h]

/-- The accumulator walk of the source splitter computes the span-based
spec split (the buffer `acc` never holds a triggering block). -/
lemma splitWalk_eq_spec (p : String) :
    ∀ (n : Nat) (blocks acc : List Block), blocks.length ≤ n →
    (∀ b ∈ acc, crossProviderServerTool b p = false) →
    splitWalk p acc blocks = splitSpecBlocks p (acc ++ blocks) := by
  intro n
  induction n with
  | zero =>
      intro blocks acc hlen hacc
      have hb : blocks = [] := List.length_eq_zero.mp (Nat.le_zero.mp hlen)
      subst hb
      rw [List.append_nil,
        splitSpecBlocks_nil_case p acc
          (dropWhile_eq_nil_of_all acc (fun b hb => by simp [hacc b hb])),
        takeWhile_eq_self_of_all acc (fun b hb => by simp [hacc b hb])]
      simp [splitWalk]
  | succ n ih =>
      intro blocks acc hlen hacc
      match blocks with
      | [] =>
          rw [List.append_nil,
            splitSpecBlocks_nil_case p acc
              (dropWhile_eq_nil_of_all acc (fun b hb => by simp [hacc b hb])),
            takeWhile_eq_self_of_all acc (fun b hb => by simp [hacc b hb])]
          simp [splitWalk]
      | b :: bs =>
          simp only [List.length_cons] at hlen
          have hlen' : bs.length ≤ n := by omega
          by_cases htrig : crossProviderServerTool b p
          · have hdrop : (acc ++ b :: bs).dropWhile
                (fun x => !crossProviderServerTool x p) = b :: bs := by
              rw [dropWhile_append_of_all acc
                (fun x hx => by simp [hacc x hx]) (b :: bs)]
              simp [List.dropWhile_cons, htrig]
            have htake : (acc ++ b :: bs).takeWhile
                (fun x => !crossProviderServerTool x p) = acc := by
              rw [takeWhile_append_of_all acc
                (fun x hx => by simp [hacc x hx]) (b :: bs)]
              simp [List.takeWhile_cons, htrig]
            rw [splitSpecBlocks_cons_case p (acc ++ b :: bs) b bs hdrop, htake]
            have hcont : splitWalk p []
                (bs.drop (FindToolResultBlocks bs).2) =
                splitSpecBlocks p (bs.drop (specConsumed bs)) := by
              rw [(findFormat_eq_spec bs).2]
              have hdl : (bs.drop (specConsumed bs)).length ≤ n := by
                rw [List.length_drop]
                omega
              have := ih (bs.drop (specConsumed bs)) [] hdl (by simp)
              simpa using this
            simp only [splitWalk, htrig, if_pos]
            rw [hcont, (findFormat_eq_spec bs).1]
            simp [specToolName]
          · have e1 : splitWalk p acc (b :: bs)
                = splitWalk p (acc ++ [b]) bs := by
              simp [splitWalk, htrig]
            rw [e1, ih bs (acc ++ [b]) hlen'
              (by
                intro x hx
                rcases List.mem_append.mp hx with hx | hx
                · exact hacc x hx
                · simp only [List.mem_singleton] at hx
                  subst hx
                  simpa using htrig),
              List.append_assoc]
            rfl

/-- C1 counterexample: an assistant message containing a provider-side
(`execution_side = provider`) tool_use from a foreign backend passes
through `SplitMessagesAtCrossProviderTool` UNCHANGED — the code only
triggers on server-side (`execution_side = server`) tool blocks — whereas
the claim mandates a split with synthetic messages at every provider-side
foreign tool block. -/
theorem crossProviderSplitter_counterexample :
    googleProviderSideToolUse.IsToolUseBlock = true ∧
    googleProviderSideToolUse.executionSide = some ExecutionSideProvider ∧
    googleProviderSideToolUse.IsFromDifferentProvider ProviderAnthropic
      = true ∧
    SplitMessagesAtCrossProviderTool
        [Message.mk "assistant" [googleProviderSideToolUse]]
        ProviderAnthropic =
      [Message.mk "assistant" [googleProviderSideToolUse]] := by
  refine ⟨rfl, rfl, rfl, rfl⟩

/-- C1 (amended): `SplitMessagesAtCrossProviderTool` is exactly the spec's
step list with "server-side" in place of "provider-side": non-assistant
messages and assistant messages with no (tool_use ∧ server-side ∧
foreign-backend) block pass through unchanged; at each such block the
buffer is flushed (as an assistant message, when non-empty), the synthetic
assistant text "I used the {tool_name} tool to help answer your question."
is emitted (name falling back to "search"), the single immediately
following text block (if any) is consumed as the payload of a synthetic
user message "Tool results:\n\n{payload}" trimmed of surrounding
whitespace ("No results found." when none follows), and the walk continues
with the remaining blocks in a new buffer; later text blocks stay as
assistant continuation. -/
theorem crossProviderSplitter_refines_spec (messages : List Message)
    (p : String) :
    SplitMessagesAtCrossProviderTool messages p =
      messages.flatMap (splitSpecOne p) := by
  unfold SplitMessagesAtCrossProviderTool
  have hfun : ∀ msg : Message,
      (if msg.role ≠ "assistant" then [msg]
       else if !msg.blocks.any (crossProviderServerTool · p) then [msg]
       else splitWalk p [] msg.blocks) = splitSpecOne p msg := by
    intro msg
    unfold splitSpecOne
    by_cases h1 : msg.role ≠ "assistant"
    · rw [if_pos h1, if_pos h1]
    · rw [if_neg h1, if_neg h1]
      by_cases h2 : (!msg.blocks.any (crossProviderServerTool · p)) = true
      · rw [if_pos h2, if_pos h2]
      · rw [if_neg h2, if_neg h2]
        have := splitWalk_eq_spec p msg.blocks.length msg.blocks []
          le_rfl (by simp)
        simpa using this
  simp only [hfun]

/-! ## C3: the Anthropic adapter's tool_result split/merge pipeline -/

/-- Unfolding of `splitRunsSpec` on a run with no tool_result. -/
lemma splitRunsSpec_nil_case (r : String) (blocks : List Block)
    (hd : blocks.dropWhile (fun b => !(b.blockType = BlockTypeToolResult))
      = []) :
    splitRunsSpec r blocks =
      if (blocks.takeWhile
            (fun b => !(b.blockType = BlockTypeToolResult))).isEmpty
      then []
      else [⟨"assistant",
        blocks.takeWhile (fun b => !(b.blockType = BlockTypeToolResult))⟩] := by
  rw [splitRunsSpec]
  simp only [hd, List.isEmpty_nil, dite_true]

/-- Unfolding of `splitRunsSpec` at the first tool_result. -/
lemma splitRunsSpec_cons_case (r : String) (blocks : List Block)
    (t : Block) (rest : List Block)
    (hd : blocks.dropWhile (fun b => !(b.blockType = BlockTypeToolResult))
      = t :: rest) :
    splitRunsSpec r blocks =
      (if (blocks.takeWhile
            (fun b => !(b.blockType = BlockTypeToolResult))).isEmpty
       then []
       else [⟨"assistant",
         blocks.takeWhile (fun b => !(b.blockType = BlockTypeToolResult))⟩]) ++
      ⟨r, [t]⟩ :: splitRunsSpec r rest := by
  rw [splitRunsSpec]
  simp only [hd, List.isEmpty_cons, Bool.false_eq_true, dite_false,
    List.head_cons, List.tail_cons]

/-- The accumulator walk of the split equals the span-based run
decomposition. -/
lemma walkTR_eq_runs (r : String) :
    ∀ (n : Nat) (bs cur : List Block), bs.length ≤ n →
    (∀ b ∈ cur, b.blockType ≠ BlockTypeToolResult) →
    walkTR r cur bs = splitRunsSpec r (cur ++ bs) := by
  intro n
  induction n with
  | zero =>
      intro bs cur hlen hcur
      have hb : bs = [] := List.length_eq_zero.mp (Nat.le_zero.mp hlen)
      subst hb
      rw [List.append_nil,
        splitRunsSpec_nil_case r cur
          (dropWhile_eq_nil_of_all cur (fun b hb => by simp [hcur b hb])),
        takeWhile_eq_self_of_all cur (fun b hb => by simp [hcur b hb])]
      simp [walkTR]
  | succ n ih =>
      intro bs cur hlen hcur
      match bs with
      | [] =>
          rw [List.append_nil,
            splitRunsSpec_nil_case r cur
              (dropWhile_eq_nil_of_all cur (fun b hb => by simp [hcur b hb])),
            takeWhile_eq_self_of_all cur (fun b hb => by simp [hcur b hb])]
          simp [walkTR]
      | b :: bs' =>
          simp only [List.length_cons] at hlen
          have hlen' : bs'.length ≤ n := by omega
          by_cases htr : b.blockType = BlockTypeToolResult
          · have hdrop : (cur ++ b :: bs').dropWhile
                (fun x => !(x.blockType = BlockTypeToolResult)) = b :: bs' := by
              rw [dropWhile_append_of_all cur
                (fun x hx => by simp [hcur x hx]) (b :: bs')]
              simp [List.dropWhile_cons, htr]
            have htake : (cur ++ b :: bs').takeWhile
                (fun x => !(x.blockType = BlockTypeToolResult)) = cur := by
              rw [takeWhile_append_of_all cur
                (fun x hx => by simp [hcur x hx]) (b :: bs')]
              simp [List.takeWhile_cons, htr]
            rw [splitRunsSpec_cons_case r (cur ++ b :: bs') b bs' hdrop, htake]
            have hcont : walkTR r [] bs' = splitRunsSpec r bs' := by
              have := ih bs' [] hlen' (by simp)
              simpa using this
            simp only [walkTR, htr, if_pos]
            rw [hcont]
          · have e1 : walkTR r cur (b :: bs') = walkTR r (cur ++ [b]) bs' := by
              simp [walkTR, htr]
            rw [e1, ih bs' (cur ++ [b]) hlen'
              (by
                intro x hx
                rcases List.mem_append.mp hx with hx | hx
                · exact hcur x hx
                · simp only [List.mem_singleton] at hx
                  subst hx
                  exact htr),
              List.append_assoc]
            rfl

/-- C3: in the Anthropic-style adapter, every assistant message is split
into runs terminated at each tool_result (the tool_result becoming its own
user-role message); afterwards adjacent same-role messages are merged by
concatenating their block lists in order (the merge output has pairwise
distinct adjacent roles and preserves block content); consequently the
input assistant turn [tool_use A, tool_result A, thinking, tool_use B,
tool_result B] is dispatched as exactly four messages with roles
assistant, user, assistant, user and block counts 1, 1, 2, 1. -/
theorem anthropicToolResultPipeline :
    (∀ msgs : List Message,
      Anthropic.splitMessagesAtToolResults msgs =
        msgs.flatMap (fun m =>
          if m.role ≠ "assistant" then [m]
          else splitRunsSpec "user" m.blocks)) ∧
    (∀ msgs : List Message,
      List.Chain' (fun a b => a.role ≠ b.role)
          (Anthropic.mergeConsecutiveSameRoleMessages msgs) ∧
        allBlocks (Anthropic.mergeConsecutiveSameRoleMessages msgs) =
          allBlocks msgs) ∧
    Anthropic.convertToAnthropicMessages
        [Message.mk "assistant"
          [toolUseBlk "A", toolResultBlk "A", thinkingBlk,
           toolUseBlk "B", toolResultBlk "B"]] =
      .ok [⟨"assistant", [.toolUse "A" (.obj []) "srch"]⟩,
           ⟨"user", [.toolResult "A" "" false]⟩,
           ⟨"assistant", [.text "<thinking>\nth\n</thinking>",
                          .toolUse "B" (.obj []) "srch"]⟩,
           ⟨"user", [.toolResult "B" "" false]⟩] := by
  refine ⟨?_, ?_, ?_⟩
  · intro msgs
    rw [anth_split_eq]
    have hfun : ∀ m : Message, splitOneTR "user" m =
        (if m.role ≠ "assistant" then [m]
         else splitRunsSpec "user" m.blocks) := by
      intro m
      unfold splitOneTR
      by_cases h1 : m.role ≠ "assistant"
      · rw [if_pos h1, if_pos h1]
      · rw [if_neg h1, if_neg h1]
        have := walkTR_eq_runs "user" m.blocks.length m.blocks []
          le_rfl (by simp)
        simpa using this
    rw [funext hfun]
  · intro msgs
    exact ⟨merge_chain msgs, merge_allBlocks msgs⟩
  · rfl

/-! ## C2/C4 support: Except plumbing and emitted-block invariants -/

/-- Bind on a successful `Except` runs the continuation. -/
theorem exceptBind_ok {α β ε : Type} (a : α) (f : α → Except ε β) :
    (Except.ok a >>= f) = f a := rfl

/-- Bind on a failed `Except` short-circuits. -/
theorem exceptBind_err {α β ε : Type} (e : ε) (f : α → Except ε β) :
    ((Except.error e : Except ε α) >>= f) = Except.error e := rfl

/-- `Except.toOption` yields `some` exactly on success. -/
theorem except_toOption_eq_some {ε α : Type} {e : Except ε α} {a : α}
    (h : e.toOption = some a) : e = .ok a := by
  cases e with
  | ok x =>
      simp only [Except.toOption] at h
      injection h with h1
      rw [h1]
  | error err =>
      simp only [Except.toOption] at h
      exact Option.noConfusion h

/-- Sanitizing a nonempty ID yields an ID matching `^[a-zA-Z0-9_-]+$`. -/
theorem sanitize_matchesPattern (s : String) (h : s ≠ "") :
    Anthropic.matchesToolIDPattern (Anthropic.sanitizeToolUseID s) = true := by
  have hd : s.data ≠ [] := fun hnil => h (String.ext (hnil.trans rfl))
  show (!(s.data.map
        (fun c => if Anthropic.isValidToolIDChar c then c else '_')).isEmpty
      && (s.data.map
        (fun c => if Anthropic.isValidToolIDChar c then c else '_')).all
          Anthropic.isValidToolIDChar) = true
  have h1 : (s.data.map
      (fun c => if Anthropic.isValidToolIDChar c then c else '_')).isEmpty
      = false := by
    cases hc : s.data with
    | nil => exact absurd hc hd
    | cons c cs => rfl
  have h2 : (s.data.map
      (fun c => if Anthropic.isValidToolIDChar c then c else '_')).all
        Anthropic.isValidToolIDChar = true := by
    rw [List.all_eq_true]
    intro x hx
    rcases List.mem_map.mp hx with ⟨a, _, rfl⟩
    by_cases hv : Anthropic.isValidToolIDChar a
    · rw [if_pos hv]; exact hv
    · rw [if_neg hv]; decide
  rw [h1, h2]
  rfl

/-- Every block the legacy web_search replay path emits is a
webSearchToolResult block (so its tool-ID and signature invariants hold
vacuously). -/
theorem replayWSLegacy_ok (kvs : List (String × GoVal))
    (ab : Anthropic.ABlock) (h : Anthropic.replayWSLegacy kvs = .ok ab) :
    toolIdOk ab = true ∧ thinkingSigOk ab = true := by
  unfold Anthropic.replayWSLegacy at h
  cases htid : Anthropic.decodeStringField kvs "tool_use_id" with
  | error e =>
      simp only [htid, exceptBind_err] at h
      exact Except.noConfusion h
  | ok tid =>
      simp only [htid, exceptBind_ok] at h
      split at h
      · rename_i xs heq
        cases hrs : xs.mapM Anthropic.decodeWSResult with
        | error e =>
            simp only [hrs, exceptBind_err] at h
            exact Except.noConfusion h
        | ok rs =>
            simp only [hrs, exceptBind_ok] at h
            split at h
            · injection h with h1
              subst h1
              exact ⟨rfl, rfl⟩
            · exact Except.noConfusion h
      · rename_i ckvs heq
        cases hec : Anthropic.decodeStringField ckvs "error_code" with
        | error e =>
            simp only [hec, exceptBind_err] at h
            exact Except.noConfusion h
        | ok ec =>
            simp only [hec, exceptBind_ok] at h
            split at h
            · injection h with h1
              subst h1
              exact ⟨rfl, rfl⟩
            · exact Except.noConfusion h
      · exact Except.noConfusion h

/-- Every block the same-provider replay decoder emits is a serverToolUse or
webSearchToolResult block; in particular it is never an SDK tool_use,
tool_result, or thinking block, so the tool-ID and signature invariants
hold for it. -/
theorem replayBlock_ok (b : Block) (ab : Anthropic.ABlock)
    (h : Anthropic.replayAnthropicBlock b = .ok ab) :
    toolIdOk ab = true ∧ thinkingSigOk ab = true := by
  unfold Anthropic.replayAnthropicBlock at h
  cases hpd : b.providerData with
  | none => rw [hpd] at h; exact Except.noConfusion h
  | some pd =>
    rw [hpd] at h
    cases pd with
    | malformedJSON => exact Except.noConfusion h
    | parsedJSON v =>
      cases v with
      | str s => exact Except.noConfusion h
      | bool bv => exact Except.noConfusion h
      | num n => exact Except.noConfusion h
      | arr xs => exact Except.noConfusion h
      | obj kvs =>
        cases hty : Anthropic.decodeStringField kvs "type" with
        | error e =>
            simp only [hty, exceptBind_err] at h
            exact Except.noConfusion h
        | ok pt =>
            simp only [hty, exceptBind_ok] at h
            by_cases h1 : pt = "server_tool_use"
            · rw [if_pos h1] at h
              cases hid : Anthropic.decodeStringField kvs "id" with
              | error e =>
                  simp only [hid, exceptBind_err] at h
                  exact Except.noConfusion h
              | ok idv =>
                  simp only [hid, exceptBind_ok] at h
                  cases hnm : Anthropic.decodeStringField kvs "name" with
                  | error e =>
                      simp only [hnm, exceptBind_err] at h
                      exact Except.noConfusion h
                  | ok nm =>
                      simp only [hnm, exceptBind_ok] at h
                      injection h with h2
                      subst h2
                      exact ⟨rfl, rfl⟩
            · rw [if_neg h1] at h
              by_cases h2 : pt = "web_search_tool_result"
              · rw [if_pos h2] at h
                cases hnf : Anthropic.decodeWSNewFormat kvs with
                | error e =>
                    rw [hnf] at h
                    exact replayWSLegacy_ok kvs ab h
                | ok trip =>
                    obtain ⟨tid, rs, ec⟩ := trip
                    rw [hnf] at h
                    simp only [] at h
                    split at h
                    · injection h with h3
                      subst h3
                      exact ⟨rfl, rfl⟩
                    · split at h
                      · injection h with h3
                        subst h3
                        exact ⟨rfl, rfl⟩
                      · exact replayWSLegacy_ok kvs ab h
              · rw [if_neg h2] at h
                exact Except.noConfusion h

/-- Every SDK block emitted by the per-block conversion has a
pattern-matching tool-use ID (when it is a tool_use/tool_result block) and
a non-empty signature (when it is a native thinking block). -/
theorem convertBlock_ok_props (b : Block) (ab : Anthropic.ABlock)
    (h : Anthropic.convertBlock b = .ok (some ab)) :
    toolIdOk ab = true ∧ thinkingSigOk ab = true := by
  unfold Anthropic.convertBlock at h
  cases hrp : Anthropic.replayPath b with
  | some orig =>
    simp only [hrp] at h
    injection h with h1
    injection h1 with h2
    subst h2
    have horig : Anthropic.replayAnthropicBlock b = .ok orig := by
      unfold Anthropic.replayPath at hrp
      split at hrp
      · exact except_toOption_eq_some hrp
      · exact Option.noConfusion hrp
    exact replayBlock_ok b orig horig
  | none =>
    simp only [hrp] at h
    repeat' split at h
    all_goals try exact Except.noConfusion h
    all_goals injection h with h1
    all_goals try exact Option.noConfusion h1
    all_goals injection h1 with h2
    all_goals subst h2
    all_goals first
      | exact ⟨rfl, rfl⟩
      | exact ⟨sanitize_matchesPattern _ (by assumption), rfl⟩
      | exact ⟨rfl, decide_eq_true (by assumption)⟩
      | exact replayBlock_ok b _ (by assumption)

/-- Lifting of `convertBlock_ok_props` to block lists. -/
theorem convertBlocks_ok_props :
    ∀ (blocks : List Block) (abs : List Anthropic.ABlock),
      Anthropic.convertBlocks blocks = .ok abs →
      ∀ ab ∈ abs, toolIdOk ab = true ∧ thinkingSigOk ab = true := by
  intro blocks
  induction blocks with
  | nil =>
      intro abs h ab hab
      rw [Anthropic.convertBlocks] at h
      injection h with h1
      subst h1
      exact absurd hab (List.not_mem_nil ab)
  | cons b rest ih =>
      intro abs h ab hab
      rw [Anthropic.convertBlocks] at h
      cases hc : Anthropic.convertBlock b with
      | error e =>
          rw [hc, exceptBind_err] at h
          exact Except.noConfusion h
      | ok conv =>
          rw [hc, exceptBind_ok] at h
          cases ht : Anthropic.convertBlocks rest with
          | error e =>
              simp only [ht, exceptBind_err] at h
              exact Except.noConfusion h
          | ok tail =>
              simp only [ht, exceptBind_ok] at h
              cases conv with
              | none =>
                  simp only [] at h
                  injection h with h1
                  subst h1
                  exact ih tail ht ab hab
              | some ab0 =>
                  simp only [] at h
                  injection h with h1
                  subst h1
                  rcases List.mem_cons.mp hab with rfl | hmem
                  · exact convertBlock_ok_props b ab hc
                  · exact ih tail ht ab hmem

/-- Lifting of the emitted-block invariants through the role dispatch. -/
theorem convertMessage_ok_props (m : Message) (am : Anthropic.AMessage)
    (h : Anthropic.convertMessage m = .ok am) :
    ∀ ab ∈ am.blocks, toolIdOk ab = true ∧ thinkingSigOk ab = true := by
  unfold Anthropic.convertMessage at h
  cases hb : Anthropic.convertBlocks m.blocks with
  | error e =>
      rw [hb, exceptBind_err] at h
      exact Except.noConfusion h
  | ok blocks =>
      rw [hb, exceptBind_ok] at h
      intro ab hab
      have hblocks : ab ∈ blocks := by
        by_cases h1 : m.role = "user"
        · rw [if_pos h1] at h
          injection h with h2
          rw [← h2] at hab
          exact hab
        · rw [if_neg h1] at h
          by_cases h2 : m.role = "assistant"
          · rw [if_pos h2] at h
            injection h with h3
            rw [← h3] at hab
            exact hab
          · rw [if_neg h2] at h
            exact Except.noConfusion h
      exact convertBlocks_ok_props m.blocks blocks hb ab hblocks

/-- Lifting of the emitted-block invariants through the message loop. -/
theorem convertMessages_ok_props :
    ∀ (msgs : List Message) (ams : List Anthropic.AMessage),
      Anthropic.convertMessages msgs = .ok ams →
      ∀ am ∈ ams, ∀ ab ∈ am.blocks,
        toolIdOk ab = true ∧ thinkingSigOk ab = true := by
  intro msgs
  induction msgs with
  | nil =>
      intro ams h am ham
      rw [Anthropic.convertMessages] at h
      injection h with h1
      subst h1
      exact absurd ham (List.not_mem_nil am)
  | cons m rest ih =>
      intro ams h am ham
      rw [Anthropic.convertMessages] at h
      cases hm : Anthropic.convertMessage m with
      | error e =>
          rw [hm, exceptBind_err] at h
          exact Except.noConfusion h
      | ok am0 =>
          rw [hm, exceptBind_ok] at h
          cases ht : Anthropic.convertMessages rest with
          | error e =>
              simp only [ht, exceptBind_err] at h
              exact Except.noConfusion h
          | ok tail =>
              simp only [ht, exceptBind_ok] at h
              injection h with h1
              subst h1
              rcases List.mem_cons.mp ham with rfl | hmem
              · exact convertMessage_ok_props m am hm
              · exact ih tail ht am hmem

/-! ## C2: Anthropic tool-ID sanitization -/

/-- C2 (amended): (i) `sanitizeToolUseID` replaces every character outside
`[a-zA-Z0-9_-]` with an underscore, so every nonempty raw ID is rewritten
to an ID matching `^[a-zA-Z0-9_-]+$` (and, being a function of the raw ID,
it sends equal raw IDs to equal sanitized IDs); (ii) every SDK tool_use or
tool_result block the adapter emits carries a pattern-matching ID; (iii)
the raw ID "call 1.x:y" appearing in a tool_use block and in its
referencing tool_result block becomes "call_1_x_y" in both, so the pair
stays paired.  (The same-provider replay path emits server_tool_use /
web_search_tool_result SDK blocks, which carry no SDK tool_use/tool_result
ID; the counterexample shows their stored IDs are NOT sanitized.) -/
theorem anthropicToolIDSanitization :
    (∀ s : String, s ≠ "" →
        Anthropic.matchesToolIDPattern (Anthropic.sanitizeToolUseID s)
          = true) ∧
    (∀ (msgs : List Message) (ams : List Anthropic.AMessage),
        Anthropic.convertToAnthropicMessages msgs = .ok ams →
        ∀ am ∈ ams, ∀ ab ∈ am.blocks, toolIdOk ab = true) ∧
    Anthropic.convertToAnthropicMessages
        [⟨"assistant", [toolUseBlk "call 1.x:y", toolResultBlk "call 1.x:y"]⟩]
      = .ok [⟨"assistant", [.toolUse "call_1_x_y" (.obj []) "srch"]⟩,
             ⟨"user", [.toolResult "call_1_x_y" "" false]⟩] := by
  refine ⟨sanitize_matchesPattern, ?_, ?_⟩
  · intro msgs ams h am ham ab hab
    unfold Anthropic.convertToAnthropicMessages at h
    exact (convertMessages_ok_props _ ams h am ham ab hab).1
  · rfl

/-- C2 witness: the sanitization theorem instantiated at the concrete
"call 1.x:y" conversation. -/
theorem anthropicToolIDSanitization_witness :
    Anthropic.matchesToolIDPattern
        (Anthropic.sanitizeToolUseID "call 1.x:y") = true ∧
    toolIdOk (Anthropic.ABlock.toolUse "call_1_x_y" (.obj []) "srch")
      = true :=
  ⟨anthropicToolIDSanitization.1 "call 1.x:y" (by decide),
   anthropicToolIDSanitization.2.1
     [⟨"assistant", [toolUseBlk "call 1.x:y", toolResultBlk "call 1.x:y"]⟩]
     [⟨"assistant", [.toolUse "call_1_x_y" (.obj []) "srch"]⟩,
      ⟨"user", [.toolResult "call_1_x_y" "" false]⟩]
     anthropicToolIDSanitization.2.2
     ⟨"assistant", [.toolUse "call_1_x_y" (.obj []) "srch"]⟩
     (List.mem_cons_self _ _)
     (.toolUse "call_1_x_y" (.obj []) "srch")
     (List.mem_cons_self _ _)⟩

/-- C2 counterexample: a tool_use block from the Anthropic backend whose
provider data replays as a server_tool_use is emitted with its stored ID
verbatim — "bad id" does not match `^[a-zA-Z0-9_-]+$` and is not rewritten
to "bad_id" — so the claim's "the emitted IDs always match" fails on the
same-provider replay path, which skips sanitization entirely. -/
theorem anthropicSanitize_counterexample :
    Anthropic.convertToAnthropicMessages
        [⟨"assistant", [anthropicReplayToolUse]⟩]
      = .ok [⟨"assistant", [.serverToolUse "bad id" (some [])]⟩] ∧
    Anthropic.matchesToolIDPattern "bad id" = false ∧
    Anthropic.sanitizeToolUseID "bad id" = "bad_id" :=
  ⟨rfl, rfl, rfl⟩

/-! ## C4: Anthropic thinking-block rendering -/

/-- C4 (amended): on the normalized conversion path (no same-provider
replay), a thinking block with a signature in its provider data is emitted
as a native thinking block carrying that signature, and a thinking block
with no signature is emitted as a text block wrapping the thinking text in
<thinking>...</thinking> tags; moreover NO successful conversion ever emits
a thinking block with an empty signature.  (The same-provider replay path,
tried first, can emit a replayed SDK block instead of either rendering —
see the counterexample.) -/
theorem anthropicThinkingRendering :
    (∀ (b : Block) (t : String),
        b.blockType = BlockTypeThinking →
        b.textContent = some t →
        Anthropic.replayPath b = none →
        Anthropic.convertBlock b =
          (if Anthropic.extractSignature b = "" then
            .ok (some (.text ("<thinking>\n" ++ t ++ "\n</thinking>")))
          else
            .ok (some (.thinking (Anthropic.extractSignature b) t)))) ∧
    (∀ (msgs : List Message) (ams : List Anthropic.AMessage),
        Anthropic.convertToAnthropicMessages msgs = .ok ams →
        ∀ am ∈ ams, ∀ ab ∈ am.blocks, thinkingSigOk ab = true) := by
  constructor
  · intro b t hbt htc hrp
    unfold Anthropic.convertBlock
    rw [hrp]
    have h1 : ¬(b.blockType = BlockTypeToolUse ∧
        b.executionSide = some ExecutionSideProvider ∧
        b.IsFromDifferentProvider ProviderAnthropic) := by
      rintro ⟨hc, -⟩
      rw [hbt] at hc
      exact absurd hc (by decide)
    rw [if_neg h1]
    have h2 : ¬(b.blockType = BlockTypeText) := by rw [hbt]; decide
    rw [if_neg h2]
    have h3 : ¬(b.blockType = BlockTypeToolUse) := by rw [hbt]; decide
    rw [if_neg h3]
    have h4 : ¬(b.blockType = BlockTypeToolResult) := by rw [hbt]; decide
    rw [if_neg h4]
    rw [if_pos hbt, htc]
  · intro msgs ams h am ham ab hab
    unfold Anthropic.convertToAnthropicMessages at h
    exact (convertMessages_ok_props _ ams h am ham ab hab).2

/-- C4 witness: the rendering rule instantiated at a signed thinking block
(emitted as a native thinking block with signature "s"), and the
no-zero-signed-thinking invariant at its one-message conversation. -/
theorem anthropicThinkingRendering_witness :
    Anthropic.convertBlock signedThinkingBlk =
      (if Anthropic.extractSignature signedThinkingBlk = "" then
        .ok (some (.text ("<thinking>\n" ++ "T" ++ "\n</thinking>")))
      else
        .ok (some (.thinking
          (Anthropic.extractSignature signedThinkingBlk) "T"))) ∧
    thinkingSigOk (.thinking "s" "T") = true :=
  ⟨anthropicThinkingRendering.1 signedThinkingBlk "T" rfl rfl rfl,
   anthropicThinkingRendering.2
     [⟨"assistant", [signedThinkingBlk]⟩]
     [⟨"assistant", [.thinking "s" "T"]⟩]
     rfl
     ⟨"assistant", [.thinking "s" "T"]⟩ (List.mem_cons_self _ _)
     (.thinking "s" "T") (List.mem_cons_self _ _)⟩

/-- C4 counterexample: a thinking block from the Anthropic backend whose
provider data carries the signature "sig" but replays as a server_tool_use
is emitted as that replayed block — not as a native thinking block carrying
"sig" — so the claim's "for every thinking block ... emitted as a native
reasoning block carrying that signature" fails on the replay path. -/
theorem anthropicThinking_counterexample :
    anthropicReplayThinking.blockType = BlockTypeThinking ∧
    Anthropic.extractSignature anthropicReplayThinking = "sig" ∧
    Anthropic.convertToAnthropicMessages
        [⟨"assistant", [anthropicReplayThinking]⟩]
      = .ok [⟨"assistant", [.serverToolUse "x" (some [])]⟩] :=
  ⟨rfl, rfl, rfl⟩

/-! ## C7 support: the tool-call finalization loop -/

/-- Any error returned by the tool-call finalization loop is the
index-citing malformed-JSON error of some accumulated call whose non-empty
buffer fails to parse. -/
theorem finalizeToolCalls_err_shape :
    ∀ (n : Nat) (parseObj : String → Except String (List (String × GoVal)))
      (m : List (Nat × OpenRouter.AccToolCall)) (idx seq : Nat) (err : GoErr),
      m.length - idx ≤ n →
      (OpenRouter.finalizeToolCalls parseObj m idx seq).2.2 = some err →
      ∃ i acc e0,
        OpenRouter.lookupToolCall m i = some acc ∧
        acc.args.length > 0 ∧
        parseObj acc.args = .error e0 ∧
        err = .wrapped ("invalid tool call arguments at index " ++
          toString i ++ ": received malformed JSON " ++
          OpenRouter.goQuote acc.args ++ " - ") (.basic e0) := by
  intro n
  induction n with
  | zero =>
      intro parseObj m idx seq err hle h
      rw [OpenRouter.finalizeToolCalls] at h
      rw [dif_neg (by omega)] at h
      exact Option.noConfusion h
  | succ n ih =>
      intro parseObj m idx seq err hle h
      rw [OpenRouter.finalizeToolCalls] at h
      by_cases hlt : idx < m.length
      · rw [dif_pos hlt] at h
        cases hlk : OpenRouter.lookupToolCall m idx with
        | none =>
            simp only [hlk] at h
            exact ih parseObj m (idx + 1) seq err (by omega) h
        | some acc =>
            simp only [hlk] at h
            cases hpi : (if acc.args.length > 0 then parseObj acc.args
                else Except.ok []) with
            | error e0 =>
                simp only [hpi] at h
                injection h with h1
                have hlen : acc.args.length > 0 := by
                  by_contra hng
                  rw [if_neg hng] at hpi
                  exact Except.noConfusion hpi
                refine ⟨idx, acc, e0, hlk, hlen, ?_, h1.symm⟩
                rw [if_pos hlen] at hpi
                exact hpi
            | ok input =>
                simp only [hpi] at h
                exact ih parseObj m (idx + 1) (seq + 1) err (by omega) h
      · rw [dif_neg hlt] at h
        exact Option.noConfusion h

/-- Every event the tool-call finalization loop emits is a complete
client-side tool_use Block event whose input is the parsed JSON of the
corresponding accumulated buffer. -/
theorem finalizeToolCalls_events_shape :
    ∀ (n : Nat) (parseObj : String → Except String (List (String × GoVal)))
      (m : List (Nat × OpenRouter.AccToolCall)) (idx seq : Nat)
      (ev : StreamEvent),
      m.length - idx ≤ n →
      ev ∈ (OpenRouter.finalizeToolCalls parseObj m idx seq).1 →
      ∃ i acc input s,
        OpenRouter.lookupToolCall m i = some acc ∧
        (if acc.args.length > 0 then parseObj acc.args else Except.ok [])
          = .ok input ∧
        ev = .block
          { blockType := BlockTypeToolUse
            sequence := s
            content := some [("tool_use_id", .str acc.id),
              ("tool_name", .str acc.name), ("input", .obj input)]
            executionSide := some ExecutionSideClient
            provider := some ProviderOpenRouter } := by
  intro n
  induction n with
  | zero =>
      intro parseObj m idx seq ev hle h
      rw [OpenRouter.finalizeToolCalls] at h
      rw [dif_neg (by omega)] at h
      exact absurd h (List.not_mem_nil ev)
  | succ n ih =>
      intro parseObj m idx seq ev hle h
      rw [OpenRouter.finalizeToolCalls] at h
      by_cases hlt : idx < m.length
      · rw [dif_pos hlt] at h
        cases hlk : OpenRouter.lookupToolCall m idx with
        | none =>
            simp only [hlk] at h
            exact ih parseObj m (idx + 1) seq ev (by omega) h
        | some acc =>
            simp only [hlk] at h
            cases hpi : (if acc.args.length > 0 then parseObj acc.args
                else Except.ok []) with
            | error e0 =>
                simp only [hpi] at h
                exact absurd h (List.not_mem_nil ev)
            | ok input =>
                simp only [hpi] at h
                rcases List.mem_cons.mp h with rfl | hmem
                · exact ⟨idx, acc, input, seq, hlk, hpi, rfl⟩
                · exact ih parseObj m (idx + 1) (seq + 1) ev (by omega) hmem
      · rw [dif_neg hlt] at h
        exact absurd h (List.not_mem_nil ev)

/-- When the tool-call finalization loop returns no error, every
accumulated call starting at the loop index is emitted as a complete
tool_use Block event with its parsed input. -/
theorem finalizeToolCalls_complete :
    ∀ (n : Nat) (parseObj : String → Except String (List (String × GoVal)))
      (m : List (Nat × OpenRouter.AccToolCall)) (idx seq : Nat),
      m.length - idx ≤ n →
      (OpenRouter.finalizeToolCalls parseObj m idx seq).2.2 = none →
      ∀ (i : Nat) (acc : OpenRouter.AccToolCall),
        idx ≤ i → i < m.length →
        OpenRouter.lookupToolCall m i = some acc →
        ∃ input s,
          (if acc.args.length > 0 then parseObj acc.args else Except.ok [])
            = .ok input ∧
          StreamEvent.block
            { blockType := BlockTypeToolUse
              sequence := s
              content := some [("tool_use_id", .str acc.id),
                ("tool_name", .str acc.name), ("input", .obj input)]
              executionSide := some ExecutionSideClient
              provider := some ProviderOpenRouter }
            ∈ (OpenRouter.finalizeToolCalls parseObj m idx seq).1 := by
  intro n
  induction n with
  | zero =>
      intro parseObj m idx seq hle hnone i acc hge hilt hlk
      omega
  | succ n ih =>
      intro parseObj m idx seq hle hnone i acc hge hilt hlk
      rw [OpenRouter.finalizeToolCalls] at hnone ⊢
      rw [dif_pos (show idx < m.length by omega)] at hnone ⊢
      cases hlk0 : OpenRouter.lookupToolCall m idx with
      | none =>
          simp only [hlk0] at hnone ⊢
          have hne : idx ≠ i := fun he => by
            rw [he, hlk] at hlk0
            exact Option.noConfusion hlk0
          exact ih parseObj m (idx + 1) seq (by omega) hnone i acc
            (by omega) hilt hlk
      | some acc0 =>
          simp only [hlk0] at hnone ⊢
          cases hpi : (if acc0.args.length > 0 then parseObj acc0.args
              else Except.ok []) with
          | error e0 =>
              simp only [hpi] at hnone
              exact Option.noConfusion hnone
          | ok input0 =>
              simp only [hpi] at hnone ⊢
              by_cases hei : i = idx
              · subst hei
                rw [hlk] at hlk0
                injection hlk0 with ha
                subst ha
                exact ⟨input0, seq, hpi, List.mem_cons_self _ _⟩
              · rcases ih parseObj m (idx + 1) (seq + 1) (by omega) hnone
                  i acc (by omega) hilt hlk with ⟨input, s, hp, hmem⟩
                exact ⟨input, s, hp, List.mem_cons_of_mem _ hmem⟩

/-- The flushed pending-thinking events contain no metadata event. -/
theorem flushThinking_no_metadata (ct : String) (ci : Nat) (tc : String) :
    (OpenRouter.flushThinking ct ci tc).1.all
      (fun ev => !ev.isMetadata) = true := by
  unfold OpenRouter.flushThinking
  split
  · rfl
  · rfl

/-- The flushed pending-text events contain no metadata event. -/
theorem flushText_no_metadata (ct : String) (si : Nat) (xc : String) :
    (OpenRouter.flushText ct si xc).1.all
      (fun ev => !ev.isMetadata) = true := by
  unfold OpenRouter.flushText
  split
  · rfl
  · rfl

/-- When finalization assembly ends in an error, the tool loop produced
that error and no metadata event was appended. -/
theorem assembleFinal_err (pre : List StreamEvent)
    (tools : List StreamEvent × Nat × Option GoErr)
    (model sr : String) (usage : Option (Nat × Nat)) (err : GoErr)
    (h : (OpenRouter.assembleFinal pre tools model sr usage).2 = some err) :
    tools.2.2 = some err ∧
    (OpenRouter.assembleFinal pre tools model sr usage).1 = pre ++ tools.1 := by
  unfold OpenRouter.assembleFinal at h ⊢
  cases htt : tools.2.2 with
  | some e =>
      simp only [htt] at h ⊢
      injection h with h1
      subst h1
      exact ⟨rfl, trivial⟩
  | none =>
      simp only [htt] at h
      exact Option.noConfusion h

/-- When finalization assembly succeeds, the tool loop succeeded and
exactly one metadata event is appended, last. -/
theorem assembleFinal_ok (pre : List StreamEvent)
    (tools : List StreamEvent × Nat × Option GoErr)
    (model sr : String) (usage : Option (Nat × Nat))
    (h : (OpenRouter.assembleFinal pre tools model sr usage).2 = none) :
    tools.2.2 = none ∧
    (OpenRouter.assembleFinal pre tools model sr usage).1 =
      (pre ++ tools.1) ++
        [.metadata { model := model, stopReason := sr
                     inputTokens := (usage.map Prod.fst).getD 0
                     outputTokens := (usage.map Prod.snd).getD 0 }] := by
  unfold OpenRouter.assembleFinal at h ⊢
  cases htt : tools.2.2 with
  | some e =>
      simp only [htt] at h
      exact Option.noConfusion h
  | none =>
      simp only [htt] at h ⊢
      exact ⟨trivial, trivial⟩

/-- `finalizeStream` unfolded to its assembly form. -/
theorem finalizeStream_eq
    (parseObj : String → Except String (List (String × GoVal)))
    (ct : String) (ci : Nat) (tc xc : String)
    (m : List (Nat × OpenRouter.AccToolCall)) (model sr : String)
    (usage : Option (Nat × Nat)) :
    OpenRouter.finalizeStream parseObj ct ci tc xc m model sr usage
      = OpenRouter.assembleFinal
          ((OpenRouter.flushThinking ct ci tc).1 ++
            (OpenRouter.flushText ct (OpenRouter.flushThinking ct ci tc).2 xc).1)
          (OpenRouter.finalizeToolCalls parseObj m 0
            (OpenRouter.flushText ct (OpenRouter.flushThinking ct ci tc).2 xc).2)
          model sr usage := rfl

/-! ## C7: malformed tool-call arguments at stream finalization -/

/-- C7 (amended): when the OpenRouter stream terminates, (i) any
finalization error is the malformed-JSON error of some accumulated call
whose non-empty buffer fails to parse, citing that call's INDEX and the
received buffer (the call's id is not part of the message); (ii) every
event the tool-call finalization loop emits is a complete client-side
tool_use Block event whose input equals the parsed JSON of its buffer (in
particular no tool_use block — partial or complete — is emitted for a call
whose buffer fails to parse, and the loop emits no metadata or error
events); (iii) when no buffer fails, every accumulated call is emitted as
such a block; (iv) on failure the finalization events contain no metadata
event and the channel's final event before closing is exactly the error
event; (v) on success no error event is appended and the single metadata
event comes last. -/
theorem openrouterMalformedToolArgs :
    (∀ (parseObj : String → Except String (List (String × GoVal)))
       (m : List (Nat × OpenRouter.AccToolCall)) (seq : Nat) (err : GoErr),
      (OpenRouter.finalizeToolCalls parseObj m 0 seq).2.2 = some err →
      ∃ i acc e0,
        OpenRouter.lookupToolCall m i = some acc ∧
        acc.args.length > 0 ∧
        parseObj acc.args = .error e0 ∧
        err = .wrapped ("invalid tool call arguments at index " ++
          toString i ++ ": received malformed JSON " ++
          OpenRouter.goQuote acc.args ++ " - ") (.basic e0)) ∧
    (∀ (parseObj : String → Except String (List (String × GoVal)))
       (m : List (Nat × OpenRouter.AccToolCall)) (seq : Nat)
       (ev : StreamEvent),
      ev ∈ (OpenRouter.finalizeToolCalls parseObj m 0 seq).1 →
      ∃ i acc input s,
        OpenRouter.lookupToolCall m i = some acc ∧
        (if acc.args.length > 0 then parseObj acc.args else Except.ok [])
          = .ok input ∧
        ev = .block
          { blockType := BlockTypeToolUse
            sequence := s
            content := some [("tool_use_id", .str acc.id),
              ("tool_name", .str acc.name), ("input", .obj input)]
            executionSide := some ExecutionSideClient
            provider := some ProviderOpenRouter }) ∧
    (∀ (parseObj : String → Except String (List (String × GoVal)))
       (m : List (Nat × OpenRouter.AccToolCall)) (seq : Nat),
      (OpenRouter.finalizeToolCalls parseObj m 0 seq).2.2 = none →
      ∀ (i : Nat) (acc : OpenRouter.AccToolCall),
        i < m.length →
        OpenRouter.lookupToolCall m i = some acc →
        ∃ input s,
          (if acc.args.length > 0 then parseObj acc.args else Except.ok [])
            = .ok input ∧
          StreamEvent.block
            { blockType := BlockTypeToolUse
              sequence := s
              content := some [("tool_use_id", .str acc.id),
                ("tool_name", .str acc.name), ("input", .obj input)]
              executionSide := some ExecutionSideClient
              provider := some ProviderOpenRouter }
            ∈ (OpenRouter.finalizeToolCalls parseObj m 0 seq).1) ∧
    (∀ (parseObj : String → Except String (List (String × GoVal)))
       (ct : String) (ci : Nat) (tc xc : String)
       (m : List (Nat × OpenRouter.AccToolCall)) (model sr : String)
       (usage : Option (Nat × Nat)) (ds : List StreamEvent) (err : GoErr),
      (OpenRouter.finalizeStream parseObj ct ci tc xc m model sr usage).2
        = some err →
      (OpenRouter.finalizeStream parseObj ct ci tc xc m model sr usage).1.all
          (fun ev => !ev.isMetadata) = true ∧
      OpenRouter.channelEvents ds
          (OpenRouter.finalizeStream parseObj ct ci tc xc m model sr usage)
        = ds ++
            (OpenRouter.finalizeStream parseObj ct ci tc xc m model sr
              usage).1 ++ [.error err]) ∧
    (∀ (parseObj : String → Except String (List (String × GoVal)))
       (ct : String) (ci : Nat) (tc xc : String)
       (m : List (Nat × OpenRouter.AccToolCall)) (model sr : String)
       (usage : Option (Nat × Nat)) (ds : List StreamEvent),
      (OpenRouter.finalizeStream parseObj ct ci tc xc m model sr usage).2
        = none →
      ∃ evs md,
        (OpenRouter.finalizeStream parseObj ct ci tc xc m model sr usage).1
          = evs ++ [.metadata md] ∧
        evs.all (fun ev => !ev.isMetadata) = true ∧
        OpenRouter.channelEvents ds
            (OpenRouter.finalizeStream parseObj ct ci tc xc m model sr usage)
          = ds ++
              (OpenRouter.finalizeStream parseObj ct ci tc xc m model sr
                usage).1) := by
  refine ⟨?_, ?_, ?_, ?_, ?_⟩
  · intro parseObj m seq err h
    exact finalizeToolCalls_err_shape m.length parseObj m 0 seq err
      (by omega) h
  · intro parseObj m seq ev h
    exact finalizeToolCalls_events_shape m.length parseObj m 0 seq ev
      (by omega) h
  · intro parseObj m seq h i acc hilt hlk
    exact finalizeToolCalls_complete m.length parseObj m 0 seq (by omega) h
      i acc (Nat.zero_le i) hilt hlk
  · intro parseObj ct ci tc xc m model sr usage ds err h
    rw [finalizeStream_eq] at h ⊢
    obtain ⟨htt, h1⟩ := assembleFinal_err _ _ _ _ _ _ h
    constructor
    · rw [h1, List.all_append, List.all_append]
      rw [flushThinking_no_metadata, flushText_no_metadata]
      simp only [Bool.true_and]
      rw [List.all_eq_true]
      intro ev hev
      rcases finalizeToolCalls_events_shape
          (m.length) parseObj m 0 _ ev (by omega) hev with
        ⟨i, acc, input, s, -, -, hevf⟩
      rw [hevf]
      rfl
    · unfold OpenRouter.channelEvents
      rw [h]
  · intro parseObj ct ci tc xc m model sr usage ds h
    rw [finalizeStream_eq] at h ⊢
    obtain ⟨htt, h1⟩ := assembleFinal_ok _ _ _ _ _ h
    refine ⟨_, _, h1, ?_, ?_⟩
    · rw [List.all_append, List.all_append]
      rw [flushThinking_no_metadata, flushText_no_metadata]
      simp only [Bool.true_and]
      rw [List.all_eq_true]
      intro ev hev
      rcases finalizeToolCalls_events_shape
          (m.length) parseObj m 0 _ ev (by omega) hev with
        ⟨i, acc, input, s, -, -, hevf⟩
      rw [hevf]
      rfl
    · unfold OpenRouter.channelEvents
      rw [h, List.append_nil]

/-- C7 witness: the theorem instantiated at a single accumulated call with
id "call_abc" and non-JSON buffer "notjson" (the parse oracle rejecting
every input): the finalization error is the index-citing wrapped error, and
it is the final channel event after the emitted events. -/
theorem openrouterMalformedToolArgs_witness :
    (∃ i acc e0,
        OpenRouter.lookupToolCall [(0, ⟨"call_abc", "f", "notjson"⟩)] i
          = some acc ∧
        acc.args.length > 0 ∧
        rejectAllJSON acc.args = .error e0 ∧
        GoErr.wrapped
            "invalid tool call arguments at index 0: received malformed JSON \"notjson\" - "
            (.basic "invalid character")
          = .wrapped ("invalid tool call arguments at index " ++ toString i ++
              ": received malformed JSON " ++ OpenRouter.goQuote acc.args ++
              " - ") (.basic e0)) ∧
    OpenRouter.channelEvents []
        (OpenRouter.finalizeStream rejectAllJSON "" 0 "" ""
          [(0, ⟨"call_abc", "f", "notjson"⟩)] "m" "stop" none)
      = [] ++
          (OpenRouter.finalizeStream rejectAllJSON "" 0 "" ""
            [(0, ⟨"call_abc", "f", "notjson"⟩)] "m" "stop" none).1 ++
          [.error (.wrapped
            "invalid tool call arguments at index 0: received malformed JSON \"notjson\" - "
            (.basic "invalid character"))] :=
  ⟨openrouterMalformedToolArgs.1 rejectAllJSON
      [(0, ⟨"call_abc", "f", "notjson"⟩)] 0
      (.wrapped
        "invalid tool call arguments at index 0: received malformed JSON \"notjson\" - "
        (.basic "invalid character"))
      (by rw [OpenRouter.finalizeToolCalls]; rfl),
   (openrouterMalformedToolArgs.2.2.2.1 rejectAllJSON "" 0 "" ""
      [(0, ⟨"call_abc", "f", "notjson"⟩)] "m" "stop" none []
      (.wrapped
        "invalid tool call arguments at index 0: received malformed JSON \"notjson\" - "
        (.basic "invalid character"))
      (by rw [finalizeStream_eq, OpenRouter.finalizeToolCalls]; rfl)).2⟩

set_option maxRecDepth 8192 in
/-- C7 counterexample: for the single accumulated call with id "call_abc"
and non-JSON buffer "notjson", the finalization error message (Go renders a
wrapped error as the prefix followed by the wrapped error's message) cites
the call index 0 and the quoted buffer; the call's id "call_abc" appears
nowhere in it, while the claim says the error cites the call's id. -/
theorem toolArgsIndexNotId_counterexample :
    OpenRouter.finalizeToolCalls rejectAllJSON
        [(0, ⟨"call_abc", "f", "notjson"⟩)] 0 0
      = ([], 0, some (.wrapped
          "invalid tool call arguments at index 0: received malformed JSON \"notjson\" - "
          (.basic "invalid character"))) ∧
    goContains
        ("invalid tool call arguments at index 0: received malformed JSON \"notjson\" - "
          ++ "invalid character") "call_abc" = false ∧
    goContains
        ("invalid tool call arguments at index 0: received malformed JSON \"notjson\" - "
          ++ "invalid character") "notjson" = true := by
  refine ⟨?_, by decide, by decide⟩
  rw [OpenRouter.finalizeToolCalls]
  rfl

/-! ## C9 support: the Lorem text-stream loop -/

/-- A delta event is not an error, block, or metadata event. -/
theorem isDelta_not_other (ev : StreamEvent) (h : ev.isDelta = true) :
    ev.isError = false ∧ ev.isBlock = false ∧ ev.isMetadata = false := by
  cases ev with
  | delta d => exact ⟨rfl, rfl, rfl⟩
  | block b => exact Bool.noConfusion h
  | metadata m => exact Bool.noConfusion h
  | error e => exact Bool.noConfusion h

/-- For a non-cutoff model the word loop emits one text delta per word and
never cuts off. -/
theorem streamWordsText_false (mt bi : Nat) :
    ∀ (ws : List String) (k : Nat),
      Lorem.streamWordsText false mt bi ws k =
        (ws.map (fun w => StreamEvent.delta
          { blockIndex := bi, deltaType := DeltaTypeText
            textDelta := some (w ++ " ") }), k + ws.length, false) := by
  intro ws
  induction ws with
  | nil => intro k; rfl
  | cons w ws ih =>
      intro k
      simp only [Lorem.streamWordsText]
      rw [if_neg (fun hc => Bool.noConfusion hc.1)]
      rw [ih (k + 1)]
      have hk : k + 1 + ws.length = k + (ws.length + 1) := by omega
      rw [hk]
      rfl

/-- For a non-cutoff model `streamTextBlock` emits the block-start delta
followed by one text delta per generated word, streams every word, and
reports no cutoff. -/
theorem streamTextBlock_no_cutoff {genWords : Nat → List String}
    {model : String} (hm : Lorem.isCutoffModel model = false)
    (bi t : Nat) :
    Lorem.streamTextBlock genWords bi t model =
      (StreamEvent.delta { blockIndex := bi, blockType := some BlockTypeText }
          :: (genWords t).map (fun w => StreamEvent.delta
            { blockIndex := bi, deltaType := DeltaTypeText
              textDelta := some (w ++ " ") }),
       (genWords t).length, false) := by
  unfold Lorem.streamTextBlock
  simp only [hm]
  rw [if_neg (fun hc => Bool.noConfusion hc)]
  rw [streamWordsText_false]
  rw [Nat.zero_add]

/-- Invariant of the rotation loop with thinking and tools disabled and a
non-cutoff model: every emitted event is a delta, no cutoff fires, the
token total grows by at most 35 per remaining index, and never shrinks. -/
theorem loremLoop_props
    (genWords : Nat → List String) (marshal : String → String)
    (model : String) (maxTokens : Nat) (tools : List String)
    (hm : Lorem.isCutoffModel model = false)
    (hhi : ∀ k, (genWords k).length ≤ k + 15) :
    ∀ (n bi total ti : Nat), 101 - bi ≤ n →
      (Lorem.streamLoop genWords marshal model false false maxTokens tools
          bi total ti).1.all StreamEvent.isDelta = true ∧
      (Lorem.streamLoop genWords marshal model false false maxTokens tools
          bi total ti).2.2 = false ∧
      (Lorem.streamLoop genWords marshal model false false maxTokens tools
          bi total ti).2.1 ≤ total + n * 35 ∧
      total ≤ (Lorem.streamLoop genWords marshal model false false maxTokens
          tools bi total ti).2.1 := by
  intro n
  induction n with
  | zero =>
      intro bi total ti hle
      rw [Lorem.streamLoop, dif_neg (by omega)]
      exact ⟨rfl, rfl, Nat.le_add_right total (0 * 35), Nat.le_refl total⟩
  | succ n ih =>
      intro bi total ti hle
      by_cases hcond : total < maxTokens ∧ bi ≤ 100
      · rw [Lorem.streamLoop, dif_pos hcond]
        by_cases hC1 : bi % 3 = 0 ∨ (bi % 3 = 1 ∧ ¬(false : Bool) = true)
        · rw [if_pos hC1]
          rw [streamTextBlock_no_cutoff hm]
          simp only [Lorem.textStep]
          rw [if_neg (fun hc => Bool.noConfusion hc)]
          obtain ⟨ha, hb, hc2, hd⟩ := ih (bi + 1)
            (total + (genWords (min 20 (maxTokens - total))).length) ti
            (by omega)
          have hlen : (genWords (min 20 (maxTokens - total))).length ≤ 35 := by
            have := hhi (min 20 (maxTokens - total))
            have := Nat.min_le_left 20 (maxTokens - total)
            omega
          refine ⟨?_, hb, ?_, ?_⟩
          · simp only [List.all_append, List.all_cons, Bool.and_eq_true]
            refine ⟨⟨rfl, ?_⟩, ha⟩
            rw [List.all_eq_true]
            intro ev hev
            rcases List.mem_map.mp hev with ⟨w, _, rfl⟩
            rfl
          · show (Lorem.streamLoop genWords marshal model false false
                maxTokens tools (bi + 1)
                (total + (genWords (min 20 (maxTokens - total))).length)
                ti).2.1 ≤ total + (n + 1) * 35
            have hmul : (n + 1) * 35 = n * 35 + 35 := by ring
            omega
          · show total ≤ (Lorem.streamLoop genWords marshal model false false
                maxTokens tools (bi + 1)
                (total + (genWords (min 20 (maxTokens - total))).length)
                ti).2.1
            omega
        · rw [if_neg hC1]
          rw [if_neg (fun hc => Bool.noConfusion hc.2)]
          rw [if_neg (fun hc => Bool.noConfusion hc)]
          obtain ⟨ha, hb, hc2, hd⟩ := ih (bi + 1) total ti (by omega)
          refine ⟨ha, hb, le_trans hc2 ?_, hd⟩
          have hmul : n * 35 ≤ (n + 1) * 35 := by omega
          omega
      · rw [Lorem.streamLoop, dif_neg hcond]
        exact ⟨rfl, rfl, Nat.le_add_right total ((n + 1) * 35),
          Nat.le_refl total⟩

/-! ## C9: Lorem text stream happy path -/

/-- C9 (amended): for every realization of the lorem word generator that
returns at least the requested number of words and overshoots by at most 15
(the generator appends 5-15-word sentences until the target is reached),
the "lorem-fast" stream for one user text block "Hi" (default parameters)
emits: a first event that is a text block-start delta at index 0, at least
one text delta at index 0, and a final metadata event with stop_reason
"end_turn" and positive output_tokens; it contains no error event — and
also no complete Block event at all: the Lorem streamer emits deltas and
metadata only, so the claim's "complete text Block event at index 0" never
appears. -/
theorem loremTextStreamHappyPath :
    ∀ (genWords : Nat → List String) (marshalToolInput : String → String),
      (∀ k, k ≤ (genWords k).length) →
      (∀ k, (genWords k).length ≤ k + 15) →
      ∃ evs md,
        Lorem.StreamResponse genWords marshalToolInput
            ⟨"lorem-fast",
             [⟨"user", [{ blockType := BlockTypeText
                          textContent := some "Hi" }]⟩], none⟩
          = .ok (evs ++ [.metadata md]) ∧
        evs.head? = some (.delta { blockIndex := 0
                                   blockType := some BlockTypeText }) ∧
        (∃ d, StreamEvent.delta d ∈ evs ∧ d.blockIndex = 0 ∧
          d.deltaType = DeltaTypeText) ∧
        md.stopReason = "end_turn" ∧
        0 < md.outputTokens ∧
        evs.all (fun ev => !ev.isError) = true ∧
        evs.all (fun ev => !ev.isBlock) = true := by
  intro genWords marshal hlo hhi
  have hm : Lorem.isCutoffModel "lorem-fast" = false := by decide
  obtain ⟨hall, hncut, hbound, -⟩ :=
    loremLoop_props genWords marshal "lorem-fast" 4096 [] hm hhi 101 0 0 0
      (by omega)
  have hrun1 : Lorem.streamLoop genWords marshal "lorem-fast" false false
      4096 [] 0 0 0 =
      Lorem.textStep
        (Lorem.streamTextBlock genWords 0 (min 20 (4096 - 0)) "lorem-fast")
        (Lorem.streamLoop genWords marshal "lorem-fast" false false 4096 []
          (0 + 1)
          (0 + (Lorem.streamTextBlock genWords 0 (min 20 (4096 - 0))
            "lorem-fast").2.1) 0)
        0 := by
    rw [Lorem.streamLoop]
    rw [dif_pos (by omega : (0:Nat) < 4096 ∧ (0:Nat) ≤ 100)]
    rw [if_pos (Or.inl (by omega : (0:Nat) % 3 = 0))]
  rw [streamTextBlock_no_cutoff hm] at hrun1
  simp only [Lorem.textStep] at hrun1
  rw [if_neg (fun hc => Bool.noConfusion hc)] at hrun1
  simp only [show (min 20 (4096 - 0) : Nat) = 20 from by norm_num,
    Nat.zero_add] at hrun1
  have h20 : 20 ≤ (genWords 20).length := hlo 20
  obtain ⟨w, ws, hgw⟩ : ∃ w ws, genWords 20 = w :: ws := by
    cases hg : genWords 20 with
    | nil => rw [hg] at h20; simp at h20
    | cons a l => exact ⟨a, l, rfl⟩
  obtain ⟨-, -, -, hmono1⟩ :=
    loremLoop_props genWords marshal "lorem-fast" 4096 [] hm hhi 100 1
      ((genWords 20).length) 0 (by omega)
  have htok : (Lorem.streamLoop genWords marshal "lorem-fast" false false
      4096 [] 0 0 0).2.1 =
      (Lorem.streamLoop genWords marshal "lorem-fast" false false 4096 []
        1 ((genWords 20).length) 0).2.1 := by
    rw [hrun1]
  have hstop : (if (Lorem.streamLoop genWords marshal "lorem-fast" false
        false 4096 [] 0 0 0).2.2 then "max_tokens"
      else if 4096 ≤ (Lorem.streamLoop genWords marshal "lorem-fast" false
        false 4096 [] 0 0 0).2.1 then "max_tokens"
      else "end_turn") = "end_turn" := by
    rw [hncut]
    rw [if_neg (fun hc => Bool.noConfusion hc)]
    rw [if_neg (by omega)]
  have hSR : Lorem.StreamResponse genWords marshal
      ⟨"lorem-fast", [⟨"user", [{ blockType := BlockTypeText
                                  textContent := some "Hi" }]⟩], none⟩
      = .ok ((Lorem.streamLoop genWords marshal "lorem-fast" false false
          4096 [] 0 0 0).1 ++
        [.metadata
          { model := "lorem-fast"
            inputTokens := Lorem.estimateTokens
              [⟨"user", [{ blockType := BlockTypeText
                           textContent := some "Hi" }]⟩]
            outputTokens := (Lorem.streamLoop genWords marshal "lorem-fast"
              false false 4096 [] 0 0 0).2.1
            stopReason := if (Lorem.streamLoop genWords marshal "lorem-fast"
                false false 4096 [] 0 0 0).2.2 then "max_tokens"
              else if 4096 ≤ (Lorem.streamLoop genWords marshal "lorem-fast"
                false false 4096 [] 0 0 0).2.1 then "max_tokens"
              else "end_turn"
            responseMetadata := [("mock", .bool true),
              ("provider", .str "lorem")] }]) := by
    with_unfolding_all rfl
  rw [hstop] at hSR
  refine ⟨(Lorem.streamLoop genWords marshal "lorem-fast" false false 4096 []
      0 0 0).1, _, hSR, ?_, ?_, rfl, ?_, ?_, ?_⟩
  · rw [hrun1]
    rfl
  · refine ⟨{ blockIndex := 0, deltaType := DeltaTypeText
              textDelta := some (w ++ " ") }, ?_, rfl, rfl⟩
    rw [hrun1, hgw]
    exact List.mem_append_left _
      (List.mem_cons_of_mem _ (List.mem_cons_self _ _))
  · show 0 < (Lorem.streamLoop genWords marshal "lorem-fast" false false
      4096 [] 0 0 0).2.1
    rw [htok]
    omega
  · rw [List.all_eq_true]
    intro ev hev
    have hdel := List.all_eq_true.mp hall ev hev
    show (!ev.isError) = true
    rw [(isDelta_not_other ev hdel).1]
    rfl
  · rw [List.all_eq_true]
    intro ev hev
    have hdel := List.all_eq_true.mp hall ev hev
    show (!ev.isBlock) = true
    rw [(isDelta_not_other ev hdel).2.1]
    rfl

/-- C9 witness: the happy-path theorem at the concrete generator returning
exactly `n` copies of "lorem". -/
theorem loremTextStreamHappyPath_witness :
    ∃ evs md,
      Lorem.StreamResponse replicateWords emptyMarshal
          ⟨"lorem-fast",
           [⟨"user", [{ blockType := BlockTypeText
                        textContent := some "Hi" }]⟩], none⟩
        = .ok (evs ++ [.metadata md]) ∧
      evs.head? = some (.delta { blockIndex := 0
                                 blockType := some BlockTypeText }) ∧
      (∃ d, StreamEvent.delta d ∈ evs ∧ d.blockIndex = 0 ∧
        d.deltaType = DeltaTypeText) ∧
      md.stopReason = "end_turn" ∧
      0 < md.outputTokens ∧
      evs.all (fun ev => !ev.isError) = true ∧
      evs.all (fun ev => !ev.isBlock) = true :=
  loremTextStreamHappyPath replicateWords emptyMarshal
    (fun k => by simp [replicateWords])
    (fun k => by simp [replicateWords])

/-- C9 counterexample: with max_tokens 3, the concrete "lorem-fast" run for
one user text block "Hi" emits the block-start delta, three text deltas,
and the final metadata event — and no complete Block event anywhere: the
Lorem streamer emits only deltas and metadata, refuting the claim's
"contains a complete text Block event at index 0".  (With this tiny budget
the stop reason is "max_tokens"; the general theorem shows the default
budget yields "end_turn" and still no Block event.) -/
theorem loremNoBlockEvents_counterexample :
    Lorem.StreamResponse replicateWords emptyMarshal
        ⟨"lorem-fast",
         [⟨"user", [{ blockType := BlockTypeText
                      textContent := some "Hi" }]⟩],
         some { maxTokens := some 3 }⟩
      = .ok [.delta { blockIndex := 0, blockType := some BlockTypeText },
             .delta { blockIndex := 0, deltaType := DeltaTypeText
                      textDelta := some "lorem " },
             .delta { blockIndex := 0, deltaType := DeltaTypeText
                      textDelta := some "lorem " },
             .delta { blockIndex := 0, deltaType := DeltaTypeText
                      textDelta := some "lorem " },
             .metadata { model := "lorem-fast", inputTokens := 1
                         outputTokens := 3, stopReason := "max_tokens"
                         responseMetadata := [("mock", .bool true),
                           ("provider", .str "lorem")] }] ∧
    ([.delta { blockIndex := 0, blockType := some BlockTypeText },
      .delta { blockIndex := 0, deltaType := DeltaTypeText
               textDelta := some "lorem " },
      .delta { blockIndex := 0, deltaType := DeltaTypeText
               textDelta := some "lorem " },
      .delta { blockIndex := 0, deltaType := DeltaTypeText
               textDelta := some "lorem " },
      .metadata { model := "lorem-fast", inputTokens := 1
                  outputTokens := 3, stopReason := "max_tokens"
                  responseMetadata := [("mock", .bool true),
                    ("provider", .str "lorem")] }] :
        List StreamEvent).all (fun ev => !ev.isBlock) = true := by
  have hrun : Lorem.streamLoop replicateWords emptyMarshal "lorem-fast"
      false false 3 [] 0 0 0
      = ([.delta { blockIndex := 0, blockType := some BlockTypeText },
          .delta { blockIndex := 0, deltaType := DeltaTypeText
                   textDelta := some "lorem " },
          .delta { blockIndex := 0, deltaType := DeltaTypeText
                   textDelta := some "lorem " },
          .delta { blockIndex := 0, deltaType := DeltaTypeText
                   textDelta := some "lorem " }], 3, false) := by
    rw [Lorem.streamLoop, Lorem.streamLoop]
    with_unfolding_all rfl
  have hSR : Lorem.StreamResponse replicateWords emptyMarshal
      ⟨"lorem-fast",
       [⟨"user", [{ blockType := BlockTypeText
                    textContent := some "Hi" }]⟩],
       some { maxTokens := some 3 }⟩
      = .ok ((Lorem.streamLoop replicateWords emptyMarshal "lorem-fast"
          false false 3 [] 0 0 0).1 ++
        [.metadata
          { model := "lorem-fast"
            inputTokens := Lorem.estimateTokens
              [⟨"user", [{ blockType := BlockTypeText
                           textContent := some "Hi" }]⟩]
            outputTokens := (Lorem.streamLoop replicateWords emptyMarshal
              "lorem-fast" false false 3 [] 0 0 0).2.1
            stopReason := if (Lorem.streamLoop replicateWords emptyMarshal
                "lorem-fast" false false 3 [] 0 0 0).2.2 then "max_tokens"
              else if 3 ≤ (Lorem.streamLoop replicateWords emptyMarshal
                "lorem-fast" false false 3 [] 0 0 0).2.1 then "max_tokens"
              else "end_turn"
            responseMetadata := [("mock", .bool true),
              ("provider", .str "lorem")] }]) := by
    with_unfolding_all rfl
  rw [hrun] at hSR
  refine ⟨hSR.trans (by with_unfolding_all rfl), by decide⟩
